import Mathlib

/-!
Verification development for the web content retrieval and extraction pipeline
(`web-read.ts`, `web-search.ts`).  Strings are modelled as `List Char`; HTTP and
the random jitter are modelled as oracles supplied to the functions that use
them.  Each definition is a shallow embedding of the correspondingly named
source function unless its doc comment says it is modelled from the spec.
-/

namespace Pi

def str (s : String) : List Char := s.data

/-! ## Truncator (`truncate.ts`, spec-modelled)

`web-read.ts` imports `truncateHead`, `DEFAULT_MAX_BYTES`, `DEFAULT_MAX_LINES`
and `formatSize` from `./truncate.js`, whose source is not part of the provided
tree.  The definitions in this section are therefore modelled from the spec
(§3 `TruncationResult`, §4.5 Truncator). -/

/-- UTF-8 byte length of a string. -/
def byteLen (s : List Char) : Nat := (s.map Char.utf8Size).sum

/-- Number of newline characters in a string. -/
def newlines (s : List Char) : Nat := (s.filter (fun c => c = '\n')).length

/-- Keep the longest prefix whose UTF-8 byte length fits within `maxB`. -/
def takeBytes (maxB : Nat) : List Char → List Char
  | [] => []
  | c :: cs => if c.utf8Size ≤ maxB then c :: takeBytes (maxB - c.utf8Size) cs else []

/-- Keep at most `budget` lines: drop everything from the `budget`-th newline on. -/
def takeLines (budget : Nat) : List Char → List Char
  | [] => []
  | c :: cs =>
    if c = '\n' then
      if budget ≤ 1 then [] else c :: takeLines (budget - 1) cs
    else c :: takeLines budget cs

/-- Modelled from the spec: the `TruncationResult` record of §3
({content, truncated, totalBytes, outputBytes, totalLines, outputLines}). -/
structure TruncationResult where
  content : List Char
  truncated : Bool
  totalBytes : Nat
  outputBytes : Nat
  totalLines : Nat
  outputLines : Nat
deriving Repr, DecidableEq

/-- Modelled from the spec: `truncateHead` of `truncate.ts` (not under the
provided sources).  §4.5: head truncation bounded by a maximum byte count and a
maximum line count — "keep the head of the content, drop the tail once either
the byte cap or the line cap is hit, whichever triggers first", reporting exact
pre-truncation totals and output sizes.  Line counts follow the usual
"newlines + 1" convention. -/
def truncateHead (maxBytes maxLines : Nat) (text : List Char) : TruncationResult :=
  let totalBytes := byteLen text
  let totalLines := newlines text + 1
  let kept := takeBytes maxBytes (takeLines maxLines text)
  { content := kept
    truncated := decide (maxBytes < totalBytes) || decide (maxLines < totalLines)
    totalBytes := totalBytes
    outputBytes := byteLen kept
    totalLines := totalLines
    outputLines := newlines kept + 1 }

/-- Modelled from the spec: `DEFAULT_MAX_BYTES` of `truncate.ts` (module-level
constant; its exact value is not in the provided sources). -/
def DEFAULT_MAX_BYTES : Nat := 50000

/-- Modelled from the spec: `DEFAULT_MAX_LINES` of `truncate.ts` (module-level
constant; its exact value is not in the provided sources). -/
def DEFAULT_MAX_LINES : Nat := 1000

/-- `truncateHead` as called by the tools, with the module-level default caps. -/
def truncateHeadDefault (text : List Char) : TruncationResult :=
  truncateHead DEFAULT_MAX_BYTES DEFAULT_MAX_LINES text

/-- Modelled from the spec: `formatSize` of `truncate.ts` (not under the
provided sources); renders a byte count for the truncation feedback message.
The exact rendering is not specified; modelled as the decimal count plus `B`. -/
def formatSize (n : Nat) : List Char := Nat.toDigits 10 n ++ str "B"

/-! ## Resilient Fetcher (`fetchWithRetry`, identical in `web-read.ts` and
`web-search.ts`)

The network is modelled as an oracle `f : Nat → FetchStep` giving, for each
attempt index, either the `Response` that `fetch` resolves with or the error it
rejects with.  `Math.random() * 1000` is modelled as a jitter oracle
`j : Nat → Nat` (the value drawn on the given attempt).  The model returns, in
addition to the outcome, the list of backoff waits (in ms) performed by
`setTimeout` and the number of `fetch` calls issued. -/

/-- A thrown JavaScript error: its `name` and `message` properties. -/
structure JsError where
  name : List Char
  message : List Char
deriving Repr, DecidableEq

/-- The response object, as far as the tools consult it: `status`,
`statusText`, the `content-type` header, and the body text. -/
structure JsResponse where
  status : Nat
  statusText : List Char
  contentType : Option (List Char)
  body : List Char
deriving Repr, DecidableEq

/-- `response.ok`: status in the range 200–299. -/
def JsResponse.isOk (r : JsResponse) : Bool := decide (200 ≤ r.status) && decide (r.status < 300)

/-- What one `await fetch(...)` does: resolve with a response, or reject. -/
inductive FetchStep where
  | ok (resp : JsResponse)
  | err (e : JsError)
deriving Repr, DecidableEq

/-- Outcome of `fetchWithRetry`: the returned response, or the thrown error. -/
inductive FetchResult where
  | success (resp : JsResponse)
  | failure (e : JsError)
deriving Repr, DecidableEq

/-- `throw lastError || new Error("Max retries exceeded")` with `lastError`
still `null`: the error thrown when every attempt was consumed by HTTP 429
responses (the spec's `RateLimitExhausted` case). -/
def maxRetriesError : JsError := { name := str "Error", message := str "Max retries exceeded" }

structure FetchRun where
  result : FetchResult
  waits : List Nat
  calls : Nat
deriving Repr, DecidableEq

/-- The retry loop of `fetchWithRetry`, from iteration `attempt` on, with
`left = maxRetries - attempt` remaining iterations (the loop condition
`attempt < maxRetries` phrased as a countdown so the recursion is structural)
and the current `lastError`.  On a 429 response it waits `2 ** attempt * 1000 +
Math.random() * 1000` and continues; on any other response it returns it; on a
thrown error it stores it and, except on the final attempt
(`attempt < maxRetries - 1`), waits `2 ** attempt * 500`; when the loop ends it
throws `lastError` or the "Max retries exceeded" error. -/
def fetchGo (f : Nat → FetchStep) (j : Nat → Nat) (maxRetries : Nat) :
    Nat → Nat → Option JsError → FetchRun
  | _, 0, lastError =>
    { result := .failure (lastError.getD maxRetriesError), waits := [], calls := 0 }
  | attempt, left + 1, lastError =>
    match f attempt with
    | .ok resp =>
      if resp.status = 429 then
        let next := fetchGo f j maxRetries (attempt + 1) left lastError
        { result := next.result
          waits := (2 ^ attempt * 1000 + j attempt) :: next.waits
          calls := next.calls + 1 }
      else
        { result := .success resp, waits := [], calls := 1 }
    | .err e =>
      let next := fetchGo f j maxRetries (attempt + 1) left (some e)
      if attempt < maxRetries - 1 then
        { result := next.result
          waits := (2 ^ attempt * 500) :: next.waits
          calls := next.calls + 1 }
      else
        { result := next.result, waits := next.waits, calls := next.calls + 1 }

/-- `fetchWithRetry(url, options, maxRetries)`; the URL and options only feed
the network, which is the oracle `f`. -/
def fetchWithRetry (f : Nat → FetchStep) (j : Nat → Nat) (maxRetries : Nat) : FetchRun :=
  fetchGo f j maxRetries 0 maxRetries none

/-- A response carrying only a status code, for the retry-sequence scenarios. -/
def statusResp (st : Nat) : JsResponse :=
  { status := st, statusText := [], contentType := none, body := [] }

/-- The response sequence [429, 429, 200]. -/
def seq429_429_200 : Nat → FetchStep :=
  fun a => .ok (statusResp (if a < 2 then 429 else 200))

/-- The response sequence [429, 429, 429, ...]. -/
def seq429All : Nat → FetchStep := fun _ => .ok (statusResp 429)

/-- A sample network-level error, as `fetch` rejects with. -/
def netErrSample : JsError := { name := str "TypeError", message := str "fetch failed" }

/-- The response sequence [429, thrown network error, 500]. -/
def seq429_err_500 : Nat → FetchStep :=
  fun a => if a = 0 then .ok (statusResp 429)
    else if a = 1 then .err netErrSample
    else .ok (statusResp 500)

/-! ## A small JavaScript-regex interpreter

The two tools are regex-driven: every conversion and extraction step is a
`String.replace`/`match`/`exec`/`test` against a concrete regular expression.
Each source regex is transcribed below as an `RE` term, and this interpreter
implements the relevant JavaScript semantics: ordered alternation, greedy and
lazy repetition with full backtracking, capture groups, backreferences, the
`i` flag (ASCII-style case folding via `Char.toLower`) and the `s` flag (on
the dot).  Searching is leftmost; global matching resumes after each match,
advancing one character after an empty match.  Not modelled (unused by the
patterns in these sources): capture-group reset inside quantifiers, lookahead,
anchors, and non-BMP case folding. -/

inductive RE where
  | eps
  | lit (c : Char)
  | cls (neg : Bool) (cs : List Char)
  | dot (dotAll : Bool)
  | seq (a b : RE)
  | alt (a b : RE)
  | star (greedy : Bool) (r : RE)
  | grp (n : Nat) (r : RE)
  | bref (n : Nat)
deriving Repr

/-- Capture environment: group index ↦ captured substring (innermost first). -/
def Caps := List (Nat × List Char)

/-- Captured text of group `n` (the empty string when the group is unset,
as JavaScript renders `undefined` groups in replacements). -/
def capGet (caps : Caps) (n : Nat) : List Char :=
  match List.find? (fun p => p.1 = n) caps with
  | some p => p.2
  | none => []

/-- Character comparison under the `i` flag. -/
def cEq (ci : Bool) (a b : Char) : Bool :=
  if ci then a.toLower = b.toLower else a = b

/-- What `.` matches: anything under the `s` flag, otherwise anything but a
line terminator. -/
def isDotChar (dotAll : Bool) (c : Char) : Bool :=
  dotAll || !(c = '\n' || c = '\r' || c = Char.ofNat 0x2028 || c = Char.ofNat 0x2029)

/-- Consume the literal `p` (a previously captured string) from `s`. -/
def eatLiteral (ci : Bool) : List Char → List Char → Option (Nat × List Char)
  | [], s => some (0, s)
  | _ :: _, [] => none
  | p :: ps, a :: t =>
    if cEq ci a p then (eatLiteral ci ps t).map (fun r => (r.1 + 1, r.2)) else none

/-- The backtracking matcher, in continuation-passing style.  `i` is the
offset from the start of the match attempt, `s` the remaining input, `k` the
continuation; the fuel bounds the recursion depth (generous at all use
sites — see `fuelFor`). -/
def reM (ci : Bool) : Nat → RE → Nat → List Char → Caps →
    (Nat → List Char → Caps → Option (Nat × List Char × Caps)) →
    Option (Nat × List Char × Caps)
  | 0, _, _, _, _, _ => none
  | fuel + 1, re, i, s, caps, k =>
    match re with
    | .eps => k i s caps
    | .lit c =>
      match s with
      | [] => none
      | a :: t => if cEq ci a c then k (i + 1) t caps else none
    | .cls neg cs =>
      match s with
      | [] => none
      | a :: t => if (cs.any (fun c => cEq ci a c)) ≠ neg then k (i + 1) t caps else none
    | .dot dotAll =>
      match s with
      | [] => none
      | a :: t => if isDotChar dotAll a then k (i + 1) t caps else none
    | .seq r1 r2 => reM ci fuel r1 i s caps (fun j s' c' => reM ci fuel r2 j s' c' k)
    | .alt r1 r2 =>
      match reM ci fuel r1 i s caps k with
      | some res => some res
      | none => reM ci fuel r2 i s caps k
    | .star greedy r =>
      if greedy then
        match reM ci fuel r i s caps
          (fun j s' c' => if j = i then none else reM ci fuel (.star greedy r) j s' c' k) with
        | some res => some res
        | none => k i s caps
      else
        match k i s caps with
        | some res => some res
        | none => reM ci fuel r i s caps
            (fun j s' c' => if j = i then none else reM ci fuel (.star greedy r) j s' c' k)
    | .grp n r => reM ci fuel r i s caps (fun j s' c' => k j s' ((n, s.take (j - i)) :: c'))
    | .bref n =>
      match eatLiteral ci (capGet caps n) s with
      | some (m, t) => k (i + m) t caps
      | none => none

/-- Recursion-depth budget: ample for the patterns in these sources (nesting
depth is small and each repetition step consumes input). -/
def fuelFor (s : List Char) : Nat := 64 * (s.length + 64)

/-- Match `re` at the start of `s`: consumed length, remaining input, captures. -/
def reMatchAt (ci : Bool) (re : RE) (s : List Char) : Option (Nat × List Char × Caps) :=
  reM ci (fuelFor s) re 0 s [] (fun j s' c' => some (j, s', c'))

/-- A successful search: the text before the match, the full match, the
captures, and the text after the match. -/
structure RMatch where
  pre : List Char
  mstr : List Char
  caps : Caps
  rest : List Char

/-- Leftmost search for `re` in `s`. -/
def reSearch (ci : Bool) (re : RE) : List Char → Option RMatch
  | [] =>
    match reMatchAt ci re [] with
    | some (_, rest, caps) => some ⟨[], [], caps, rest⟩
    | none => none
  | c :: t =>
    match reMatchAt ci re (c :: t) with
    | some (j, rest, caps) => some ⟨[], (c :: t).take j, caps, rest⟩
    | none => (reSearch ci re t).map (fun m => { m with pre := c :: m.pre })

/-- `re.test(s)`. -/
def reTest (ci : Bool) (re : RE) (s : List Char) : Bool := (reSearch ci re s).isSome

/-- Group `n` of the first match (`s.match(re)` without the `g` flag). -/
def reFirstGroup (ci : Bool) (re : RE) (n : Nat) (s : List Char) : Option (List Char) :=
  (reSearch ci re s).map (fun m => capGet m.caps n)

/-- All matches of a global regex (full match and captures, in order). -/
def reMatchAllGo (ci : Bool) (re : RE) : Nat → List Char → List (List Char × Caps)
  | 0, _ => []
  | fuel + 1, s =>
    match reSearch ci re s with
    | none => []
    | some m =>
      if m.mstr.isEmpty then
        match m.rest with
        | [] => [(m.mstr, m.caps)]
        | _ :: t => (m.mstr, m.caps) :: reMatchAllGo ci re fuel t
      else (m.mstr, m.caps) :: reMatchAllGo ci re fuel m.rest

def reMatchAll (ci : Bool) (re : RE) (s : List Char) : List (List Char × Caps) :=
  reMatchAllGo ci re (s.length + 1) s

/-- `s.match(re)` with the `g` flag: the list of full match strings. -/
def reMatchAllStrings (ci : Bool) (re : RE) (s : List Char) : List (List Char) :=
  (reMatchAll ci re s).map (fun p => p.1)

/-- `s.replace(re, f)` with the `g` flag, `f` taking the match and captures. -/
def reReplAllGo (ci : Bool) (re : RE) (f : List Char → Caps → List Char) :
    Nat → List Char → List Char
  | 0, s => s
  | fuel + 1, s =>
    match reSearch ci re s with
    | none => s
    | some m =>
      if m.mstr.isEmpty then
        m.pre ++ f m.mstr m.caps ++
          (match m.rest with
           | [] => []
           | c :: t => c :: reReplAllGo ci re f fuel t)
      else m.pre ++ f m.mstr m.caps ++ reReplAllGo ci re f fuel m.rest

def reReplaceAll (ci : Bool) (re : RE) (f : List Char → Caps → List Char)
    (s : List Char) : List Char :=
  reReplAllGo ci re f (s.length + 1) s

/-- Sequence a list of regexes. -/
def rcat (l : List RE) : RE := l.foldr .seq .eps

/-- A literal string regex. -/
def rlit (s : String) : RE := rcat (s.data.map .lit)

/-- A literal regex from a runtime string (selector names spliced into the
pattern source). -/
def rlitL (s : List Char) : RE := rcat (s.map .lit)

/-- `[...]` (positive character class). -/
def rcls (s : String) : RE := .cls false s.data

/-- `[^...]` (negated character class). -/
def rncl (s : String) : RE := .cls true s.data

/-- `[\s\S]`: any character. -/
def rany : RE := .cls true []

/-- `x?` (greedy option). -/
def ropt (r : RE) : RE := .alt r .eps

/-- `x+`. -/
def rplus (greedy : Bool) (r : RE) : RE := .seq r (.star greedy r)

/-- JavaScript `\s`, restricted to the whitespace code points that occur in
practice here (ASCII whitespace, NBSP, BOM; the exotic Unicode spaces are out
of modelled scope). -/
def wsChars : List Char := [' ', '\t', '\n', '\r', '\x0b', '\x0c', Char.ofNat 0xA0, Char.ofNat 0xFEFF]

def isJsWs (c : Char) : Bool := wsChars.contains c

/-- `trim()`: drop leading and trailing whitespace. -/
def trimJS (s : List Char) : List Char :=
  (((s.dropWhile isJsWs).reverse).dropWhile isJsWs).reverse

/-- `p.isPrefixOf s`, i.e. `s.startsWith(p)` (case-sensitive). -/
def startsWithL (p s : List Char) : Bool := List.isPrefixOf p s

/-- `arr.join(sep)`. -/
def joinSep (sep : List Char) : List (List Char) → List Char
  | [] => []
  | [x] => x
  | x :: xs => x ++ sep ++ joinSep sep xs

/-- `s.split("\n")`. -/
def splitNl : List Char → List (List Char)
  | [] => [[]]
  | '\n' :: t => [] :: splitNl t
  | c :: t =>
    match splitNl t with
    | [] => [[c]]
    | l :: ls => (c :: l) :: ls

/-! ## `web-read.ts`: HTML helpers -/

/-- Value of a decimal digit string (`parseInt(code, 10)`; digit strings long
enough to lose double precision are out of modelled scope). -/
def decVal (ds : List Char) : Nat := ds.foldl (fun a c => a * 10 + (c.toNat - 48)) 0

def hexDigitVal (c : Char) : Option Nat :=
  if '0' ≤ c ∧ c ≤ '9' then some (c.toNat - 48)
  else if 'a' ≤ c ∧ c ≤ 'f' then some (c.toNat - 87)
  else if 'A' ≤ c ∧ c ≤ 'F' then some (c.toNat - 55)
  else none

/-- Value of a hex digit string (`parseInt(code, 16)`). -/
def hexVal (ds : List Char) : Nat :=
  ds.foldl (fun a c => a * 16 + ((hexDigitVal c).getD 0)) 0

/-- `String.fromCharCode(n)`: a UTF-16 code unit, taken mod 2^16.  Lone
surrogate code units (which `Char` cannot carry) are out of modelled scope and
land on NUL via `Char.ofNat`. -/
def fromCharCode (n : Nat) : Char := Char.ofNat (n % 65536)

/-- `/&#(\d+);/g`. -/
def decEntPat : RE := rcat [rlit "&#", .grp 1 (rplus true (rcls "0123456789")), .lit ';']

/-- `/&#x([0-9a-fA-F]+);/g`. -/
def hexEntPat : RE := rcat [rlit "&#x", .grp 1 (rplus true (rcls "0123456789abcdefABCDEF")), .lit ';']

/-- `decodeEntities` (web-read.ts): the chained entity replacements, in source
order. -/
def decodeEntities (html : List Char) : List Char :=
  let h := reReplaceAll false (rlit "&amp;") (fun _ _ => str "&") html
  let h := reReplaceAll false (rlit "&lt;") (fun _ _ => str "<") h
  let h := reReplaceAll false (rlit "&gt;") (fun _ _ => str ">") h
  let h := reReplaceAll false (rlit "&quot;") (fun _ _ => str "\"") h
  let h := reReplaceAll false (rlit "&#39;") (fun _ _ => str "'") h
  let h := reReplaceAll false (rlit "&nbsp;") (fun _ _ => str " ") h
  let h := reReplaceAll false decEntPat (fun _ c => [fromCharCode (decVal (capGet c 1))]) h
  reReplaceAll false hexEntPat (fun _ c => [fromCharCode (hexVal (capGet c 1))]) h

/-- `/<[^>]+>/g`. -/
def stripTagsPat : RE := rcat [.lit '<', rplus true (rncl ">"), .lit '>']

/-- `stripTags` (web-read.ts): remove all tags. -/
def stripTags (html : List Char) : List Char :=
  reReplaceAll false stripTagsPat (fun _ _ => []) html

/-- `/<name[^>]*>[\s\S]*?<\/name>/gi` (script/style/nav/footer/header/aside
removal). -/
def elemPat (name : String) : RE :=
  rcat [rlit ("<" ++ name), .star true (rncl ">"), .lit '>', .star false rany,
    rlit ("</" ++ name ++ ">")]

/-- `/<br\s*\/?>/gi`. -/
def brPat : RE := rcat [rlit "<br", .star true (.cls false wsChars), ropt (.lit '/'), .lit '>']

/-- `/<\/h[1-6]>/gi`. -/
def hClosePat : RE := rcat [rlit "</h", rcls "123456", .lit '>']

/-- `/[ \t]+/g`. -/
def spaceTabPat : RE := rplus true (rcls " \t")

/-- `/\n{3,}/g`. -/
def nl3Pat : RE := rcat [.lit '\n', .lit '\n', .lit '\n', .star true (.lit '\n')]

/-- Replace every match by a constant string. -/
def subAll (ci : Bool) (p : RE) (rep : List Char) (s : List Char) : List Char :=
  reReplaceAll ci p (fun _ _ => rep) s

/-- Delete every match. -/
def delAll (ci : Bool) (p : RE) (s : List Char) : List Char :=
  reReplaceAll ci p (fun _ _ => []) s

/-- `htmlToText` (web-read.ts): the replacement chain, in source order. -/
def htmlToText (html : List Char) : List Char :=
  let t := delAll true (elemPat "script") html
  let t := delAll true (elemPat "style") t
  let t := delAll true (elemPat "nav") t
  let t := delAll true (elemPat "footer") t
  let t := delAll true (elemPat "header") t
  let t := delAll true (elemPat "aside") t
  let t := subAll true brPat (str "\n") t
  let t := subAll true (rlit "</p>") (str "\n\n") t
  let t := subAll true (rlit "</div>") (str "\n") t
  let t := subAll true (rlit "</li>") (str "\n") t
  let t := subAll true (rlit "</tr>") (str "\n") t
  let t := subAll true (rlit "</td>") (str " ") t
  let t := subAll true (rlit "</th>") (str " ") t
  let t := subAll true hClosePat (str "\n\n") t
  let t := stripTags t
  let t := decodeEntities t
  let t := subAll false spaceTabPat (str " ") t
  let t := subAll false nl3Pat (str "\n\n") t
  trimJS t

/-- `/<a[^>]*href="([^"]+)"[^>]*>([\s\S]*?)<\/a>/gi`. -/
def linkPat : RE := rcat [rlit "<a", .star true (rncl ">"), rlit "href=\"",
  .grp 1 (rplus true (rncl "\"")), .lit '"', .star true (rncl ">"), .lit '>',
  .grp 2 (.star false rany), rlit "</a>"]

/-- `/<img[^>]*src="([^"]+)"[^>]*alt="([^"]*)"[^>]*\/?>/gi`. -/
def img1Pat : RE := rcat [rlit "<img", .star true (rncl ">"), rlit "src=\"",
  .grp 1 (rplus true (rncl "\"")), .lit '"', .star true (rncl ">"), rlit "alt=\"",
  .grp 2 (.star true (rncl "\"")), .lit '"', .star true (rncl ">"), ropt (.lit '/'), .lit '>']

/-- `/<img[^>]*src="([^"]+)"[^>]*\/?>/gi`. -/
def img2Pat : RE := rcat [rlit "<img", .star true (rncl ">"), rlit "src=\"",
  .grp 1 (rplus true (rncl "\"")), .lit '"', .star true (rncl ">"), ropt (.lit '/'), .lit '>']

/-- `/<hN[^>]*>([\s\S]*?)<\/hN>/gi` for a digit `d`. -/
def hPat (d : Char) : RE := rcat [rlit "<h", .lit d, .star true (rncl ">"), .lit '>',
  .grp 1 (.star false rany), rlit "</h", .lit d, .lit '>']

/-- `/<(strong|b)[^>]*>([\s\S]*?)<\/\1>/gi`. -/
def strongBPat : RE := rcat [.lit '<', .grp 1 (.alt (rlit "strong") (rlit "b")),
  .star true (rncl ">"), .lit '>', .grp 2 (.star false rany), rlit "</", .bref 1, .lit '>']

/-- `/<(em|i)[^>]*>([\s\S]*?)<\/\1>/gi`. -/
def emIPat : RE := rcat [.lit '<', .grp 1 (.alt (rlit "em") (rlit "i")),
  .star true (rncl ">"), .lit '>', .grp 2 (.star false rany), rlit "</", .bref 1, .lit '>']

/-- `/<code[^>]*>([\s\S]*?)<\/code>/gi`. -/
def codePat : RE := rcat [rlit "<code", .star true (rncl ">"), .lit '>',
  .grp 1 (.star false rany), rlit "</code>"]

/-- `/<(pre)[^>]*>([\s\S]*?)<\/\1>/gi`. -/
def prePat : RE := rcat [.lit '<', .grp 1 (rlit "pre"), .star true (rncl ">"), .lit '>',
  .grp 2 (.star false rany), rlit "</", .bref 1, .lit '>']

/-- `/<ul[^>]*>/gi` and `/<ol[^>]*>/gi`. -/
def ulOpenPat : RE := rcat [rlit "<ul", .star true (rncl ">"), .lit '>']

def olOpenPat : RE := rcat [rlit "<ol", .star true (rncl ">"), .lit '>']

/-- `/<li[^>]*>([\s\S]*?)<\/li>/gi`. -/
def liPat : RE := rcat [rlit "<li", .star true (rncl ">"), .lit '>',
  .grp 1 (.star false rany), rlit "</li>"]

/-- `/<blockquote[^>]*>([\s\S]*?)<\/blockquote>/gi`. -/
def bqPat : RE := rcat [rlit "<blockquote", .star true (rncl ">"), .lit '>',
  .grp 1 (.star false rany), rlit "</blockquote>"]

/-- `/<table[^>]*>([\s\S]*?)<\/table>/gi`. -/
def tablePat : RE := rcat [rlit "<table", .star true (rncl ">"), .lit '>',
  .grp 1 (.star false rany), rlit "</table>"]

/-- `/<tr[^>]*>([\s\S]*?)<\/tr>/gi`. -/
def trPat : RE := rcat [rlit "<tr", .star true (rncl ">"), .lit '>',
  .grp 1 (.star false rany), rlit "</tr>"]

/-- `/<t[dh][^>]*>[\s\S]*?<\/t[dh]>/gi`. -/
def cellPat : RE := rcat [rlit "<t", rcls "dh", .star true (rncl ">"), .lit '>',
  .star false rany, rlit "</t", rcls "dh", .lit '>']

/-- `/<p[^>]*>([\s\S]*?)<\/p>/gi`. -/
def pPat : RE := rcat [rlit "<p", .star true (rncl ">"), .lit '>',
  .grp 1 (.star false rany), rlit "</p>"]

/-- `htmlToMarkdown` (web-read.ts): the replacement chain, in source order. -/
def htmlToMarkdown (html : List Char) : List Char :=
  let m := delAll true (elemPat "script") html
  let m := delAll true (elemPat "style") m
  let m := delAll true (elemPat "nav") m
  let m := delAll true (elemPat "footer") m
  let m := delAll true (elemPat "aside") m
  let m := reReplaceAll true linkPat (fun _ c =>
    let href := capGet c 1
    let linkText := trimJS (stripTags (capGet c 2))
    if linkText.isEmpty || startsWithL (str "javascript:") href then linkText
    else str "[" ++ linkText ++ str "](" ++ href ++ str ")") m
  let m := reReplaceAll true img1Pat
    (fun _ c => str "![" ++ capGet c 2 ++ str "](" ++ capGet c 1 ++ str ")") m
  let m := reReplaceAll true img2Pat
    (fun _ c => str "![](" ++ capGet c 1 ++ str ")") m
  let m := reReplaceAll true (hPat '1')
    (fun _ c => str "\n# " ++ trimJS (stripTags (capGet c 1)) ++ str "\n") m
  let m := reReplaceAll true (hPat '2')
    (fun _ c => str "\n## " ++ trimJS (stripTags (capGet c 1)) ++ str "\n") m
  let m := reReplaceAll true (hPat '3')
    (fun _ c => str "\n### " ++ trimJS (stripTags (capGet c 1)) ++ str "\n") m
  let m := reReplaceAll true (hPat '4')
    (fun _ c => str "\n#### " ++ trimJS (stripTags (capGet c 1)) ++ str "\n") m
  let m := reReplaceAll true (hPat '5')
    (fun _ c => str "\n##### " ++ trimJS (stripTags (capGet c 1)) ++ str "\n") m
  let m := reReplaceAll true (hPat '6')
    (fun _ c => str "\n###### " ++ trimJS (stripTags (capGet c 1)) ++ str "\n") m
  let m := reReplaceAll true strongBPat (fun _ c => str "**" ++ capGet c 2 ++ str "**") m
  let m := reReplaceAll true emIPat (fun _ c => str "*" ++ capGet c 2 ++ str "*") m
  let m := reReplaceAll true codePat (fun _ c => str "`" ++ capGet c 1 ++ str "`") m
  let m := reReplaceAll true prePat
    (fun _ c => str "\n```\n" ++ capGet c 2 ++ str "\n```\n") m
  let m := subAll true ulOpenPat (str "\n") m
  let m := subAll true (rlit "</ul>") (str "\n") m
  let m := subAll true olOpenPat (str "\n") m
  let m := subAll true (rlit "</ol>") (str "\n") m
  let m := reReplaceAll true liPat (fun _ c => str "- " ++ capGet c 1 ++ str "\n") m
  let m := reReplaceAll true bqPat (fun _ c =>
    let lines := splitNl (trimJS (stripTags (capGet c 1)))
    joinSep (str "\n") (lines.map (fun l => str "> " ++ l)) ++ str "\n") m
  let m := reReplaceAll true tablePat (fun _ c =>
    let table := reReplaceAll true trPat (fun _ c2 =>
      let cells := reMatchAllStrings true cellPat (capGet c2 1)
      str "| " ++ joinSep (str " | ") (cells.map (fun cl => trimJS (stripTags cl))) ++
        str " |\n") (capGet c 1)
    str "\n" ++ table ++ str "\n") m
  let m := subAll true brPat (str "\n") m
  let m := reReplaceAll true pPat (fun _ c => str "\n" ++ capGet c 1 ++ str "\n") m
  let m := subAll true (rlit "</div>") (str "\n") m
  let m := stripTags m
  let m := decodeEntities m
  let m := subAll false spaceTabPat (str " ") m
  let m := subAll false nl3Pat (str "\n\n") m
  trimJS m

/-! ## `web-read.ts`: selector extraction, title, main content -/

/-- `<[^>]*id=Q…Q[^>]*>([\s\S]*?)<\/[^>]+>` with quote character `q`. -/
def idPatQ (q : Char) (id : List Char) : RE :=
  rcat [.lit '<', .star true (rncl ">"), rlit "id=", .lit q, rlitL id, .lit q,
    .star true (rncl ">"), .lit '>', .grp 1 (.star false rany),
    rlit "</", rplus true (rncl ">"), .lit '>']

/-- `<[^>]*class="[^"]*NAME[^"]*"[^>]*>([\s\S]*?)<\/[^>]+>`. -/
def classPat (cl : List Char) : RE :=
  rcat [.lit '<', .star true (rncl ">"), rlit "class=\"", .star true (rncl "\""), rlitL cl,
    .star true (rncl "\""), .lit '"', .star true (rncl ">"), .lit '>',
    .grp 1 (.star false rany), rlit "</", rplus true (rncl ">"), .lit '>']

/-- Compile a selector string spliced verbatim into the pattern source, as
`new RegExp` then reads it: literal characters, plus `[...]` character classes
(the one metacharacter form occurring among the heuristic candidates, e.g.
`[role="main"]`; other regex metacharacters in selectors are out of modelled
scope and read literally). -/
def fragRE : Nat → List Char → List RE
  | 0, _ => []
  | _, [] => []
  | fuel + 1, '[' :: t =>
    let cs := t.takeWhile (fun c => ¬ c = ']')
    let rest := (t.dropWhile (fun c => ¬ c = ']')).drop 1
    .cls false cs :: fragRE fuel rest
  | fuel + 1, c :: t => .lit c :: fragRE fuel t

/-- `<SEL[^>]*>([\s\S]*?)<\/SEL>` with the selector spliced in. -/
def elementPat (sel : List Char) : RE :=
  rcat ([.lit '<'] ++ fragRE (sel.length + 1) sel ++
    [.star true (rncl ">"), .lit '>', .grp 1 (.star false rany), rlit "</"] ++
    fragRE (sel.length + 1) sel ++ [.lit '>'])

/-- The pattern list `extractBySelector` builds for a selector. -/
def selectorPatterns (selector : List Char) : List RE :=
  match selector with
  | '#' :: id => [idPatQ '"' id, idPatQ (Char.ofNat 39) id]
  | '.' :: cl => [classPat cl]
  | _ => [elementPat selector]

/-- The loop over the patterns: the first with matches wins,
`matches.join("\n")`. -/
def tryPatterns : List RE → List Char → List Char
  | [], _ => []
  | p :: ps, html =>
    let ms := reMatchAllStrings true p html
    if ms.length > 0 then joinSep (str "\n") ms else tryPatterns ps html

/-- `extractBySelector` (web-read.ts). -/
def extractBySelector (html selector : List Char) : List Char :=
  tryPatterns (selectorPatterns selector) html

/-- `/<title[^>]*>([\s\S]*?)<\/title>/i`. -/
def titlePat : RE := rcat [rlit "<title", .star true (rncl ">"), .lit '>',
  .grp 1 (.star false rany), rlit "</title>"]

/-- `extractTitle` (web-read.ts): `<title>`, else first `<h1>`, else empty. -/
def extractTitle (html : List Char) : List Char :=
  match reFirstGroup true titlePat 1 html with
  | some t => trimJS (decodeEntities (stripTags t))
  | none =>
    match reFirstGroup true (hPat '1') 1 html with
    | some t => trimJS (decodeEntities (stripTags t))
    | none => []

/-- The fixed priority list of content-container selectors. -/
def contentSelectors : List (List Char) :=
  [str "article", str "[role=\"main\"]", str "main", str "#content", str "#main",
   str ".content", str ".main", str ".article", str ".post"]

/-- `/<body[^>]*>([\s\S]*?)<\/body>/i`. -/
def bodyPat : RE := rcat [rlit "<body", .star true (rncl ">"), .lit '>',
  .grp 1 (.star false rany), rlit "</body>"]

/-- The selector loop of `extractMainContent`:
`if (content && content.length > 500) return content`. -/
def tryContentSelectors : List (List Char) → List Char → Option (List Char)
  | [], _ => none
  | sel :: rest, html =>
    let content := extractBySelector html sel
    if !content.isEmpty && decide (500 < content.length) then some content
    else tryContentSelectors rest html

/-- `extractMainContent` (web-read.ts). -/
def extractMainContent (html : List Char) : List Char :=
  match tryContentSelectors contentSelectors html with
  | some c => c
  | none =>
    match reFirstGroup true bodyPat 1 html with
    | some inner => inner
    | none => html

/-! ## `web-search.ts`: result parsing

The `stripTags` of `web-search.ts` (tag removal, six named-entity
replacements, `\s+ → " "`, `trim`) is embedded by direct recursion — each pass
is a transparently equivalent rendering of its regex (leftmost, global,
greedy), which the whitespace-invariant proofs below induct over. -/

/-- After a `<`: consume at least one non-`>` character up to a `>`, returning
the rest (the `[^>]+>` part of `/<[^>]+>/`); `none` when no such span exists,
in which case the regex does not match at this `<`. -/
def tagTail : List Char → Option (List Char)
  | [] => none
  | '>' :: r => some r
  | _ :: t => tagTail t

def tagSpanEnd : List Char → Option (List Char)
  | [] => none
  | '>' :: _ => none
  | _ :: t => tagTail t

/-- `.replace(/<[^>]+>/g, "")`, as a single left-to-right pass (the fuel is
the input length; every step consumes at least one character). -/
def removeTagsGo : Nat → List Char → List Char
  | 0, s => s
  | fuel + 1, s =>
    match s with
    | [] => []
    | '<' :: t =>
      match tagSpanEnd t with
      | some rest => removeTagsGo fuel rest
      | none => '<' :: removeTagsGo fuel t
    | c :: t => c :: removeTagsGo fuel t

def removeTags (s : List Char) : List Char := removeTagsGo s.length s

/-- The six named-entity replacements of `stripTags` (web-search.ts), in
source order. -/
def decodeBasicEntities (s : List Char) : List Char :=
  let h := reReplaceAll false (rlit "&amp;") (fun _ _ => str "&") s
  let h := reReplaceAll false (rlit "&lt;") (fun _ _ => str "<") h
  let h := reReplaceAll false (rlit "&gt;") (fun _ _ => str ">") h
  let h := reReplaceAll false (rlit "&quot;") (fun _ _ => str "\"") h
  let h := reReplaceAll false (rlit "&#39;") (fun _ _ => str "'") h
  reReplaceAll false (rlit "&nbsp;") (fun _ _ => str " ") h

/-- `.replace(/\s+/g, " ")`: each maximal whitespace run becomes one space. -/
def collapseWsGo : Nat → List Char → List Char
  | 0, s => s
  | _ + 1, [] => []
  | fuel + 1, c :: t =>
    if isJsWs c then ' ' :: collapseWsGo fuel (t.dropWhile isJsWs)
    else c :: collapseWsGo fuel t

def collapseWs (s : List Char) : List Char := collapseWsGo s.length s

/-- `stripTags` (web-search.ts): tags, entities, whitespace collapse, trim. -/
def stripTagsWS (html : List Char) : List Char :=
  trimJS (collapseWs (decodeBasicEntities (removeTags html)))

/-- `/<a[^>]*class="[^"]*result__a[^"]*"[^>]*href="([^"]+)"[^>]*>(.*?)<\/a>/gi`. -/
def resultAPat : RE := rcat [rlit "<a", .star true (rncl ">"), rlit "class=\"",
  .star true (rncl "\""), rlit "result__a", .star true (rncl "\""), .lit '"',
  .star true (rncl ">"), rlit "href=\"", .grp 1 (rplus true (rncl "\"")), .lit '"',
  .star true (rncl ">"), .lit '>', .grp 2 (.star false (.dot false)), rlit "</a>"]

/-- `/<a[^>]*data-testid="result-title-a"[^>]*href="([^"]+)"[^>]*>(.*?)<\/a>/gi`. -/
def resultAPat2 : RE := rcat [rlit "<a", .star true (rncl ">"),
  rlit "data-testid=\"result-title-a\"", .star true (rncl ">"), rlit "href=\"",
  .grp 1 (rplus true (rncl "\"")), .lit '"', .star true (rncl ">"), .lit '>',
  .grp 2 (.star false (.dot false)), rlit "</a>"]

/-- `/<a[^>]*class="[^"]*result__snippet[^"]*"[^>]*>(.*?)<\/a>/gis`. -/
def snippetPat : RE := rcat [rlit "<a", .star true (rncl ">"), rlit "class=\"",
  .star true (rncl "\""), rlit "result__snippet", .star true (rncl "\""), .lit '"',
  .star true (rncl ">"), .lit '>', .grp 1 (.star false (.dot true)), rlit "</a>"]

/-- `/<span[^>]*data-testid="result-snippet"[^>]*>(.*?)<\/span>/gis`. -/
def snippetPat2 : RE := rcat [rlit "<span", .star true (rncl ">"),
  rlit "data-testid=\"result-snippet\"", .star true (rncl ">"), .lit '>',
  .grp 1 (.star false (.dot true)), rlit "</span>"]

/-- `/uddg=([^&]+)/`. -/
def uddgPat : RE := rcat [rlit "uddg=", .grp 1 (rplus true (rncl "&"))]

/-- Percent-escape run: parse a maximal sequence of `%hh` escapes into bytes. -/
def pctRunC : List Char → (List Nat × List Char)
  | '%' :: h1 :: h2 :: t =>
    match hexDigitVal h1, hexDigitVal h2 with
    | some a, some b =>
      let r := pctRunC t
      ((a * 16 + b) :: r.1, r.2)
    | _, _ => ([], '%' :: h1 :: h2 :: t)
  | s => ([], s)

/-- `s.includes(pat)`. -/
def containsSub (pat : List Char) : List Char → Bool
  | [] => List.isPrefixOf pat []
  | c :: t => List.isPrefixOf pat (c :: t) || containsSub pat t

/-- Replacement character for byte sequences that are not valid UTF-8
(`decodeURIComponent` would throw `URIError` there; malformed input is out of
modelled scope). -/
def replChar : Char := Char.ofNat 0xFFFD

def isContByte (b : Nat) : Bool := decide (0x80 ≤ b) && decide (b < 0xC0)

/-- Decode a byte sequence as UTF-8 (as `decodeURIComponent` reassembles
percent-escaped bytes). -/
def utf8DecodeGo : Nat → List Nat → List Char
  | 0, _ => []
  | _ + 1, [] => []
  | fuel + 1, b :: t =>
    if b < 0x80 then Char.ofNat b :: utf8DecodeGo fuel t
    else if 0xC2 ≤ b ∧ b ≤ 0xDF then
      match t with
      | c1 :: t' =>
        if isContByte c1 then
          Char.ofNat ((b % 0x20) * 0x40 + c1 % 0x40) :: utf8DecodeGo fuel t'
        else replChar :: utf8DecodeGo fuel t
      | [] => [replChar]
    else if 0xE0 ≤ b ∧ b ≤ 0xEF then
      match t with
      | c1 :: c2 :: t' =>
        if isContByte c1 && isContByte c2 then
          Char.ofNat ((b % 0x10) * 0x1000 + (c1 % 0x40) * 0x40 + c2 % 0x40) ::
            utf8DecodeGo fuel t'
        else replChar :: utf8DecodeGo fuel t
      | _ => [replChar]
    else if 0xF0 ≤ b ∧ b ≤ 0xF4 then
      match t with
      | c1 :: c2 :: c3 :: t' =>
        if isContByte c1 && isContByte c2 && isContByte c3 then
          Char.ofNat ((b % 0x8) * 0x40000 + (c1 % 0x40) * 0x1000 +
            (c2 % 0x40) * 0x40 + c3 % 0x40) :: utf8DecodeGo fuel t'
        else replChar :: utf8DecodeGo fuel t
      | _ => [replChar]
    else replChar :: utf8DecodeGo fuel t

def utf8Decode (bs : List Nat) : List Char := utf8DecodeGo bs.length bs

/-- `decodeURIComponent(s)`: percent-escape runs become UTF-8-decoded text,
other characters pass through. -/
def decodeURIComponentGo : Nat → List Char → List Char
  | 0, s => s
  | _ + 1, [] => []
  | fuel + 1, '%' :: t =>
    (match pctRunC ('%' :: t) with
     | ([], _) => '%' :: decodeURIComponentGo fuel t
     | (b :: bs, rest) => utf8Decode (b :: bs) ++ decodeURIComponentGo fuel rest)
  | fuel + 1, c :: t => c :: decodeURIComponentGo fuel t

def decodeURIComponent (s : List Char) : List Char := decodeURIComponentGo s.length s

structure WebSearchResult where
  url : List Char
  title : List Char
  snippet : List Char
deriving Repr, DecidableEq

/-- The rest of the input after a match, advancing one character past an empty
match as `exec` does with `lastIndex`. -/
def afterMatch (m : RMatch) : List Char :=
  if m.mstr.isEmpty then
    match m.rest with
    | [] => []
    | _ :: t => t
  else m.rest

/-- The de-redirecting step: `if (url.includes("uddg=")) { … }`. -/
def ddgResolveUrl (url0 : List Char) : List Char :=
  if containsSub (str "uddg=") url0 then
    match reSearch false uddgPat url0 with
    | some m => decodeURIComponent (capGet m.caps 1)
    | none => url0
  else url0

/-- The guard under which a parsed anchor is kept:
`url && !url.startsWith("/") && !url.includes("duckduckgo.com") && title`. -/
def ddgKeep (url title : List Char) : Bool :=
  !url.isEmpty && !decide (url.head? = some '/') &&
    !(containsSub (str "duckduckgo.com") url) && !title.isEmpty

/-- The `while ((match = usedRegex.exec(html)) !== null && urlTitles.length <
maxResults)` loop of `parseDDGResults`. -/
def collectUrlTitles (pat : RE) : Nat → List Char → List (List Char × List Char) → Nat →
    List (List Char × List Char)
  | 0, _, acc, _ => acc
  | fuel + 1, s, acc, maxResults =>
    match reSearch true pat s with
    | none => acc
    | some m =>
      if acc.length < maxResults then
        let url0 := capGet m.caps 1
        let title := trimJS (stripTagsWS (capGet m.caps 2))
        let url := ddgResolveUrl url0
        let acc' := if ddgKeep url title then acc ++ [(url, title)] else acc
        collectUrlTitles pat fuel (afterMatch m) acc' maxResults
      else acc

/-- The snippet-collection loop of `parseDDGResults`. -/
def collectSnippets (pat : RE) : Nat → List Char → List (List Char) → Nat →
    List (List Char)
  | 0, _, acc, _ => acc
  | fuel + 1, s, acc, maxResults =>
    match reSearch true pat s with
    | none => acc
    | some m =>
      if acc.length < maxResults then
        collectSnippets pat fuel (afterMatch m)
          (acc ++ [trimJS (stripTagsWS (capGet m.caps 1))]) maxResults
      else acc

/-- The final zip: `for (i = 0; i < urlTitles.length && results.length <
maxResults; i++)`, with `snippets[i] || ""`. -/
def combineResults (snips : List (List Char)) (maxResults : Nat) :
    List (List Char × List Char) → Nat → List WebSearchResult
  | [], _ => []
  | ut :: rest, i =>
    if i < maxResults then
      { url := ut.1, title := ut.2, snippet := snips.getD i [] } ::
        combineResults snips maxResults rest (i + 1)
    else []

/-- `parseDDGResults` (web-search.ts): probe which markup variant matches,
collect url/title pairs and snippets, zip positionally. -/
def parseDDGResults (html : List Char) (maxResults : Nat) : List WebSearchResult :=
  let usedPat := if reTest true resultAPat html then resultAPat else resultAPat2
  let urlTitles := collectUrlTitles usedPat (html.length + 1) html [] maxResults
  let usedSnippetPat := if reTest true snippetPat html then snippetPat else snippetPat2
  let snippets := collectSnippets usedSnippetPat (html.length + 1) html [] maxResults
  combineResults snippets maxResults urlTitles 0

/-! ## The two `execute` operations

Both operations are modelled end to end as total functions over the fetch and
jitter oracles: the `try` body is an `Except JsError _` computation and the
`catch` handler folds it into the record the host receives.  The web-read
model additionally reports how many `fetch` calls were issued. -/

/-- What the host receives from web-read: the rendered text and the
`isError` flag. -/
structure ToolOut where
  text : List Char
  isError : Bool
deriving Repr, DecidableEq

inductive Fmt where
  | markdown
  | text
deriving Repr, DecidableEq

def natDec (n : Nat) : List Char := Nat.toDigits 10 n

structure ModelURL where
  protocol : List Char
deriving Repr, DecidableEq

/-- Scheme characters after the first: ALPHA / DIGIT / `+` / `-` / `.`. -/
def isSchemeChar (c : Char) : Bool := c.isAlpha || c.isDigit || c = '+' || c = '-' || c = '.'

/-- Simplified model of WHATWG `new URL(url)`: only the `protocol` component
is modelled — an initial ALPHA, further scheme characters, then `:`; the
scheme is lowercased and reported with its trailing colon, as
`parsedUrl.protocol` renders it.  A string without such a prefix fails to
parse (`new URL` throws).  Host requirements of special schemes and the other
URL components are out of modelled scope. -/
def modelURL (url : List Char) : Option ModelURL :=
  match url with
  | [] => none
  | c :: t =>
    if c.isAlpha then
      match t.dropWhile isSchemeChar with
      | ':' :: _ => some { protocol := (c :: t.takeWhile isSchemeChar).map Char.toLower ++ [':'] }
      | _ => none
    else none

/-- The `[Content truncated: …]` suffix. -/
def truncationNote (t : TruncationResult) : List Char :=
  str "\n\n[Content truncated: showing " ++ natDec t.outputLines ++ str " of " ++
    natDec t.totalLines ++ str " lines (" ++ formatSize t.outputBytes ++ str " of " ++
    formatSize t.totalBytes ++ str ")]"

/-- The convert-then-truncate tail of `execute` (web-read.ts): converted body,
optional `# title\n\nSource: url\n\n` preamble, truncation note. -/
def webReadConvert (url : List Char) (outputFormat : Fmt) (title contentHtml : List Char) :
    Except JsError ToolOut :=
  let content :=
    match outputFormat with
    | .markdown => htmlToMarkdown contentHtml
    | .text => htmlToText contentHtml
  let truncation := truncateHeadDefault content
  let output :=
    (if !title.isEmpty then str "# " ++ title ++ str "\n\nSource: " ++ url ++ str "\n\n"
     else []) ++
    truncation.content ++
    (if truncation.truncated then truncationNote truncation else [])
  .ok { text := output, isError := false }

/-- `execute` (web-read.ts) once a response is in hand: `response.ok` check,
content-type policy, selector extraction or main-content heuristics,
conversion, truncation. -/
def webReadAfterFetch (url : List Char) (outputFormat : Fmt)
    (selector : Option (List Char)) (resp : JsResponse) : Except JsError ToolOut :=
  if !resp.isOk then
    .error { name := str "Error"
             message := str "Failed to fetch: " ++ natDec resp.status ++ str " " ++
               resp.statusText }
  else
    let contentType := resp.contentType.getD []
    if !(containsSub (str "text/html") contentType) &&
        !(containsSub (str "application/xhtml") contentType) then
      if containsSub (str "text/") contentType then
        let truncation := truncateHeadDefault resp.body
        .ok { text := truncation.content ++
                (if truncation.truncated then truncationNote truncation else [])
              isError := false }
      else
        .error { name := str "Error"
                 message := str "Unsupported content type: " ++ contentType ++
                   str ". This tool only supports HTML and text content." }
    else
      let html := resp.body
      let title := extractTitle html
      match selector with
      | some sel =>
        let contentHtml := extractBySelector html sel
        if contentHtml.isEmpty then
          .error { name := str "Error"
                   message := str "No content found matching selector: " ++ sel }
        else webReadConvert url outputFormat title contentHtml
      | none => webReadConvert url outputFormat title (extractMainContent html)

/-- The `try` body of `execute` (web-read.ts): URL validation, protocol check,
fetch, then `webReadAfterFetch`; paired with the number of `fetch` calls
issued. -/
def innerWebRead (f : Nat → FetchStep) (j : Nat → Nat) (url : List Char)
    (format : Option Fmt) (selector : Option (List Char)) :
    Except JsError ToolOut × Nat :=
  match modelURL url with
  | none => (.error { name := str "Error", message := str "Invalid URL: " ++ url }, 0)
  | some u =>
    if !(u.protocol = str "http:" || u.protocol = str "https:") then
      (.error { name := str "Error"
                message := str "Unsupported protocol: " ++ u.protocol ++
                  str ". Only http and https are allowed." }, 0)
    else
      let run := fetchWithRetry f j 3
      match run.result with
      | .failure e => (.error e, run.calls)
      | .success resp => (webReadAfterFetch url (format.getD .markdown) selector resp, run.calls)

/-- `execute` (web-read.ts), `catch` handler included: an `AbortError` becomes
`Request cancelled` without the error flag; any other thrown error becomes
`Failed to read URL: …` with the error flag.  Total by construction — the host
always receives a `ToolOut`. -/
def webReadExecute (f : Nat → FetchStep) (j : Nat → Nat) (url : List Char)
    (format : Option Fmt) (selector : Option (List Char)) : ToolOut × Nat :=
  match innerWebRead f j url format selector with
  | (.ok r, n) => (r, n)
  | (.error e, n) =>
    if e.name = str "AbortError" then
      ({ text := str "Request cancelled", isError := false }, n)
    else
      ({ text := str "Failed to read URL: " ++ e.message, isError := true }, n)

/-- What the host receives from web-search. -/
structure SearchOut where
  text : List Char
  isError : Bool
  resultCount : Nat
deriving Repr, DecidableEq

def formatResultsGo : List WebSearchResult → Nat → List Char
  | [], _ => []
  | r :: rest, i =>
    str "### " ++ natDec (i + 1) ++ str ". [" ++ r.title ++ str "](" ++ r.url ++ str ")\n" ++
      (if !r.snippet.isEmpty then r.snippet ++ str "\n" else []) ++ str "\n" ++
      formatResultsGo rest (i + 1)

/-- The markdown result list `execute` (web-search.ts) renders. -/
def formatSearchResults (query : List Char) (results : List WebSearchResult) : List Char :=
  str "## Search Results for \"" ++ query ++ str "\"\n\n" ++ formatResultsGo results 0

/-- The `try` body of `execute` (web-search.ts).  The search URL built from
the query only feeds the network, which is the oracle `f`. -/
def innerWebSearch (f : Nat → FetchStep) (j : Nat → Nat) (query : List Char)
    (maxResults : Option Nat) : Except JsError SearchOut :=
  let limit := min (maxResults.getD 10) 20
  let run := fetchWithRetry f j 3
  match run.result with
  | .failure e => .error e
  | .success resp =>
    if !resp.isOk then
      .error { name := str "Error"
               message := str "Search failed: " ++ natDec resp.status ++ str " " ++
                 resp.statusText }
    else
      let results := parseDDGResults resp.body limit
      if results.isEmpty then
        .ok { text := str "No results found for \"" ++ query ++ str "\""
              isError := false, resultCount := 0 }
      else
        .ok { text := formatSearchResults query results
              isError := false, resultCount := results.length }

/-- `execute` (web-search.ts), `catch` handler included: an `AbortError`
becomes `Search cancelled` without the error flag; any other thrown error
becomes `Search error: …` with the error flag. -/
def webSearchExecute (f : Nat → FetchStep) (j : Nat → Nat) (query : List Char)
    (maxResults : Option Nat) : SearchOut :=
  match innerWebSearch f j query maxResults with
  | .ok r => r
  | .error e =>
    if e.name = str "AbortError" then
      { text := str "Search cancelled", isError := false, resultCount := 0 }
    else
      { text := str "Search error: " ++ e.message, isError := true, resultCount := 0 }

/-! ## Concrete scenarios used by the claims -/

/-- A 200 HTML response with the given body. -/
def htmlResp (html : List Char) : JsResponse :=
  { status := 200, statusText := str "OK", contentType := some (str "text/html"), body := html }

/-- The error an aborted `fetch` rejects with. -/
def abortErrSample : JsError :=
  { name := str "AbortError", message := str "This operation was aborted" }

/-- The page on which the `#main` selector matches exactly one element. -/
def c3Page : List Char := str "<html><body><div id=\"main\">Hello</div></body></html>"

def ddgAnchor (i : Nat) : List Char :=
  str "<a class=\"result__a\" href=\"https://e" ++ natDec i ++ str ".com/\">R" ++
    natDec i ++ str "</a>\n"

/-- A results page with 15 well-formed result anchors, the first being a
redirector URL whose `uddg=` parameter is `https%3A%2F%2Fexample.com`. -/
def ddgPage15 : List Char :=
  str "<html><body><a class=\"result__a\" href=\"//duckduckgo.com/l/?uddg=https%3A%2F%2Fexample.com&rut=x\">First</a>\n" ++
    joinSep [] ((List.range 14).map (fun i => ddgAnchor (i + 1))) ++ str "</body></html>"

def ddgResult (i : Nat) : WebSearchResult :=
  { url := str "https://e" ++ natDec i ++ str ".com/", title := str "R" ++ natDec i
    snippet := [] }

/-- The ten results the parse of `ddgPage15` must produce, in source order. -/
def ddgExpected : List WebSearchResult :=
  { url := str "https://example.com", title := str "First", snippet := [] } ::
    (List.range 9).map (fun i => ddgResult (i + 1))

/-- A result anchor whose title text is the encoded `&lt;b&gt;`. -/
def entityAnchor : List Char :=
  str "<a class=\"result__a\" href=\"https://example.com/\">&lt;b&gt;</a>"

/-- Two characters are not both whitespace (adjacent whitespace was
collapsed). -/
def noWsPair (a b : Char) : Prop := ¬(isJsWs a = true ∧ isJsWs b = true)

/-- The shape `.replace(/\s+/g, " ")` followed by `.trim()` leaves: every
whitespace character is a plain space, no two adjacent whitespace characters,
and no leading or trailing whitespace. -/
def cleanText (s : List Char) : Prop :=
  (∀ c ∈ s, isJsWs c = true → c = ' ') ∧
  List.Chain' noWsPair s ∧
  (∀ c, s.head? = some c → isJsWs c = false) ∧
  (∀ c, s.getLast? = some c → isJsWs c = false)

theorem byteLen_takeBytes_le_budget (maxB : Nat) (s : List Char) :
    byteLen (takeBytes maxB s) ≤ maxB := by
  induction s generalizing maxB with
  | nil => simp [takeBytes, byteLen]
  | cons c cs ih =>
    simp only [takeBytes]
    split
    · rename_i h
      have := ih (maxB - c.utf8Size)
      simp only [byteLen, List.map_cons, List.sum_cons] at *
      omega
    · simp [byteLen]

theorem byteLen_takeBytes_le (maxB : Nat) (s : List Char) :
    byteLen (takeBytes maxB s) ≤ byteLen s := by
  induction s generalizing maxB with
  | nil => simp [takeBytes]
  | cons c cs ih =>
    simp only [takeBytes]
    split
    · have := ih (maxB - c.utf8Size)
      simp only [byteLen, List.map_cons, List.sum_cons] at *
      omega
    · simp [byteLen]

theorem takeBytes_of_fits (maxB : Nat) (s : List Char) (h : byteLen s ≤ maxB) :
    takeBytes maxB s = s := by
  induction s generalizing maxB with
  | nil => simp [takeBytes]
  | cons c cs ih =>
    simp only [byteLen, List.map_cons, List.sum_cons] at h
    have h1 : c.utf8Size ≤ maxB := by omega
    have h2 : byteLen cs ≤ maxB - c.utf8Size := by
      simp only [byteLen]; omega
    simp [takeBytes, h1, ih _ h2]

theorem newlines_takeBytes_le (maxB : Nat) (s : List Char) :
    newlines (takeBytes maxB s) ≤ newlines s := by
  induction s generalizing maxB with
  | nil => simp [takeBytes]
  | cons c cs ih =>
    by_cases hf : c.utf8Size ≤ maxB
    · have := ih (maxB - c.utf8Size)
      by_cases hc : c = '\n'
      · subst hc
        simp only [takeBytes, if_pos hf, newlines, List.filter_cons] at *
        simp at *
        omega
      · simp only [takeBytes, if_pos hf, newlines, List.filter_cons] at *
        simp [hc] at *
        omega
    · simp [takeBytes, hf, newlines]

theorem newlines_takeLines_lt (budget : Nat) (s : List Char) (h : 1 ≤ budget) :
    newlines (takeLines budget s) < budget := by
  induction s generalizing budget with
  | nil => simpa [takeLines, newlines] using h
  | cons c cs ih =>
    by_cases hc : c = '\n'
    · by_cases hb : budget ≤ 1
      · simp only [takeLines, hc, if_pos rfl, if_pos hb]
        simpa [newlines] using h
      · have := ih (budget - 1) (by omega)
        simp [takeLines, hc, hb, newlines, List.filter_cons] at *
        omega
    · have := ih budget h
      simp [takeLines, hc, newlines, List.filter_cons] at *
      omega

theorem newlines_takeLines_le (budget : Nat) (s : List Char) :
    newlines (takeLines budget s) ≤ newlines s := by
  induction s generalizing budget with
  | nil => simp [takeLines]
  | cons c cs ih =>
    by_cases hc : c = '\n'
    · by_cases hb : budget ≤ 1
      · simp [takeLines, hc, hb, newlines]
      · have := ih (budget - 1)
        simp [takeLines, hc, hb, newlines, List.filter_cons] at *
        omega
    · have := ih budget
      simp [takeLines, hc, newlines, List.filter_cons] at *
      omega

theorem byteLen_takeLines_le (budget : Nat) (s : List Char) :
    byteLen (takeLines budget s) ≤ byteLen s := by
  induction s generalizing budget with
  | nil => simp [takeLines]
  | cons c cs ih =>
    by_cases hc : c = '\n'
    · by_cases hb : budget ≤ 1
      · simp [takeLines, hc, hb, byteLen]
      · have := ih (budget - 1)
        simp [takeLines, hc, hb, byteLen] at *
        omega
    · have := ih budget
      simp [takeLines, hc, byteLen] at *
      omega

theorem takeLines_of_fits (budget : Nat) (s : List Char) (h : newlines s < budget) :
    takeLines budget s = s := by
  induction s generalizing budget with
  | nil => simp [takeLines]
  | cons c cs ih =>
    by_cases hc : c = '\n'
    · have h' : newlines cs + 1 < budget := by
        subst hc
        simpa [newlines, List.filter_cons] using h
      have hb : ¬ budget ≤ 1 := by omega
      have hcs : newlines cs < budget - 1 := by omega
      simp [takeLines, hc, hb, ih _ hcs]
    · have hcs : newlines cs < budget := by
        simpa [newlines, List.filter_cons, hc] using h
      simp [takeLines, hc, ih _ hcs]

theorem truncateHead_eq_self (maxBytes maxLines : Nat) (text : List Char)
    (hb : byteLen text ≤ maxBytes) (hl : newlines text + 1 ≤ maxLines) :
    takeBytes maxBytes (takeLines maxLines text) = text := by
  rw [takeLines_of_fits maxLines text (by omega), takeBytes_of_fits maxBytes text hb]

/-- **C1.** For every input text (and caps with a positive line cap, as the
module-level defaults are), the `TruncationResult` returned by `truncateHead`
satisfies `outputBytes ≤ totalBytes` and `outputLines ≤ totalLines`, and its
`truncated` flag is true iff `outputBytes < totalBytes` or
`outputLines < totalLines`. -/
theorem C1_truncateHead_invariant (maxBytes maxLines : Nat) (text : List Char)
    (h : 1 ≤ maxLines) :
    (truncateHead maxBytes maxLines text).outputBytes ≤
      (truncateHead maxBytes maxLines text).totalBytes ∧
    (truncateHead maxBytes maxLines text).outputLines ≤
      (truncateHead maxBytes maxLines text).totalLines ∧
    ((truncateHead maxBytes maxLines text).truncated = true ↔
      ((truncateHead maxBytes maxLines text).outputBytes <
          (truncateHead maxBytes maxLines text).totalBytes ∨
        (truncateHead maxBytes maxLines text).outputLines <
          (truncateHead maxBytes maxLines text).totalLines)) := by
  simp only [truncateHead]
  have hby : byteLen (takeBytes maxBytes (takeLines maxLines text)) ≤ byteLen text :=
    le_trans (byteLen_takeBytes_le _ _) (byteLen_takeLines_le _ _)
  have hnl : newlines (takeBytes maxBytes (takeLines maxLines text)) ≤ newlines text :=
    le_trans (newlines_takeBytes_le _ _) (newlines_takeLines_le _ _)
  refine ⟨hby, by omega, ?_⟩
  constructor
  · intro ht
    simp only [Bool.or_eq_true, decide_eq_true_eq] at ht
    rcases ht with ht | ht
    · exact Or.inl (lt_of_le_of_lt (byteLen_takeBytes_le_budget _ _) ht)
    · refine Or.inr ?_
      have h1 : newlines (takeBytes maxBytes (takeLines maxLines text)) ≤
          newlines (takeLines maxLines text) := newlines_takeBytes_le _ _
      have h2 : newlines (takeLines maxLines text) < maxLines :=
        newlines_takeLines_lt _ _ h
      omega
  · intro hs
    by_contra htf
    simp only [Bool.or_eq_true, decide_eq_true_eq, not_or, Nat.not_lt] at htf
    obtain ⟨htb, htl⟩ := htf
    rw [truncateHead_eq_self maxBytes maxLines text htb htl] at hs
    omega

theorem C1_truncateHead_invariant_witness :
    1 ≤ 2 ∧
    ((truncateHead 3 2 (str "ab\ncd\nef")).outputBytes ≤
        (truncateHead 3 2 (str "ab\ncd\nef")).totalBytes ∧
      (truncateHead 3 2 (str "ab\ncd\nef")).outputLines ≤
        (truncateHead 3 2 (str "ab\ncd\nef")).totalLines ∧
      ((truncateHead 3 2 (str "ab\ncd\nef")).truncated = true ↔
        ((truncateHead 3 2 (str "ab\ncd\nef")).outputBytes <
            (truncateHead 3 2 (str "ab\ncd\nef")).totalBytes ∨
          (truncateHead 3 2 (str "ab\ncd\nef")).outputLines <
            (truncateHead 3 2 (str "ab\ncd\nef")).totalLines))) :=
  ⟨by decide, C1_truncateHead_invariant 3 2 (str "ab\ncd\nef") (by decide)⟩

/-- **C2.** With a 3-attempt budget, `fetchWithRetry` on the response sequence
[429, 429, 200] returns the 200 response, and on [429, 429, 429] throws the
"Max retries exceeded" error (the spec's `RateLimitExhausted`) after all
attempts are consumed; before each 429 retry it waits
`2 ^ attempt * 1000` ms plus the random jitter drawn on that attempt, which is
below 1000 ms (`Math.random() * 1000 < 1000`). -/
theorem C2_retry_sequences (j : Nat → Nat) (hj : ∀ a, j a < 1000) :
    (fetchWithRetry seq429_429_200 j 3).result = .success (statusResp 200) ∧
    (fetchWithRetry seq429_429_200 j 3).waits = [2 ^ 0 * 1000 + j 0, 2 ^ 1 * 1000 + j 1] ∧
    (fetchWithRetry seq429All j 3).result = .failure maxRetriesError ∧
    (fetchWithRetry seq429All j 3).waits =
      [2 ^ 0 * 1000 + j 0, 2 ^ 1 * 1000 + j 1, 2 ^ 2 * 1000 + j 2] ∧
    j 0 < 1000 ∧ j 1 < 1000 ∧ j 2 < 1000 :=
  ⟨rfl, rfl, rfl, rfl, hj 0, hj 1, hj 2⟩

theorem C2_retry_sequences_witness :
    (∀ a : Nat, (fun _ : Nat => 999) a < 1000) ∧
    ((fetchWithRetry seq429_429_200 (fun _ => 999) 3).result = .success (statusResp 200) ∧
      (fetchWithRetry seq429_429_200 (fun _ => 999) 3).waits =
        [2 ^ 0 * 1000 + 999, 2 ^ 1 * 1000 + 999] ∧
      (fetchWithRetry seq429All (fun _ => 999) 3).result = .failure maxRetriesError ∧
      (fetchWithRetry seq429All (fun _ => 999) 3).waits =
        [2 ^ 0 * 1000 + 999, 2 ^ 1 * 1000 + 999, 2 ^ 2 * 1000 + 999] ∧
      999 < 1000 ∧ 999 < 1000 ∧ 999 < 1000) :=
  ⟨fun _ => Nat.lt_succ_self 999, C2_retry_sequences (fun _ => 999) (fun _ => Nat.lt_succ_self 999)⟩

theorem fetchGo_skips_retryable (f : Nat → FetchStep) (j : Nat → Nat) (maxR : Nat) :
    ∀ (d attempt left : Nat) (le : Option JsError) (resp : JsResponse),
    d < left →
    (∀ i, i < d → (∃ r, f (attempt + i) = .ok r ∧ r.status = 429) ∨
      (∃ e, f (attempt + i) = .err e)) →
    f (attempt + d) = .ok resp → resp.status ≠ 429 →
    (fetchGo f j maxR attempt left le).result = .success resp ∧
    (fetchGo f j maxR attempt left le).calls = d + 1 := by
  intro d
  induction d with
  | zero =>
    intro attempt left le resp hlt hpre hf hs
    obtain ⟨l, rfl⟩ : ∃ l, left = l + 1 := ⟨left - 1, by omega⟩
    simp only [Nat.add_zero] at hf
    simp [fetchGo, hf, hs]
  | succ d ih =>
    intro attempt left le resp hlt hpre hf hs
    obtain ⟨l, rfl⟩ : ∃ l, left = l + 1 := ⟨left - 1, by omega⟩
    have hshift : ∀ i, i < d → (∃ r, f (attempt + 1 + i) = .ok r ∧ r.status = 429) ∨
        (∃ e, f (attempt + 1 + i) = .err e) := by
      intro i hi
      have := hpre (i + 1) (by omega)
      simpa [Nat.add_assoc, Nat.add_comm 1 i] using this
    have hf' : f (attempt + 1 + d) = .ok resp := by
      have : attempt + 1 + d = attempt + (d + 1) := by omega
      rw [this]; exact hf
    rcases hpre 0 (by omega) with ⟨r, hr, hr429⟩ | ⟨e, he⟩
    · simp only [Nat.add_zero] at hr
      have hnext := ih (attempt + 1) l le resp (by omega) hshift hf' hs
      simp [fetchGo, hr, hr429, hnext.1, hnext.2]
    · simp only [Nat.add_zero] at he
      have hnext := ih (attempt + 1) l (some e) resp (by omega) hshift hf' hs
      by_cases hw : attempt < maxR - 1 <;> simp [fetchGo, he, hw, hnext.1, hnext.2]

/-- **C9.** `fetchWithRetry` returns the first non-429 response it receives
unchanged (even an error status such as 500) and performs no further attempts:
if every attempt before `k` was either a 429 response or a thrown error and
attempt `k` resolves with a non-429 response, that response is the result and
exactly `k + 1` fetch calls are issued. -/
theorem C9_first_non429_returned (f : Nat → FetchStep) (j : Nat → Nat)
    (maxRetries k : Nat) (resp : JsResponse) (hk : k < maxRetries)
    (hpre : ∀ i, i < k → (∃ r, f i = .ok r ∧ r.status = 429) ∨ (∃ e, f i = .err e))
    (hf : f k = .ok resp) (hs : resp.status ≠ 429) :
    (fetchWithRetry f j maxRetries).result = .success resp ∧
    (fetchWithRetry f j maxRetries).calls = k + 1 :=
  fetchGo_skips_retryable f j maxRetries k 0 maxRetries none resp hk
    (by simpa using hpre) (by simpa using hf) hs

theorem C9_first_non429_returned_witness :
    2 < 3 ∧
    (fetchWithRetry seq429_err_500 (fun _ => 0) 3).result = .success (statusResp 500) ∧
    (fetchWithRetry seq429_err_500 (fun _ => 0) 3).calls = 3 := by
  refine ⟨by decide, ?_⟩
  have h := C9_first_non429_returned seq429_err_500 (fun _ => 0) 3 2 (statusResp 500)
    (by decide)
    (fun i hi => by
      interval_cases i
      · exact Or.inl ⟨statusResp 429, rfl, rfl⟩
      · exact Or.inr ⟨netErrSample, rfl⟩)
    rfl (by decide)
  exact ⟨h.1, h.2⟩

/-- **C6.** Converting the fragment `<p>Hello <b>world</b></p>` to markdown
yields `Hello **world**`, and converting the same fragment to text yields
`Hello world`. -/
theorem C6_hello_world_conversion :
    htmlToMarkdown (str "<p>Hello <b>world</b></p>") = str "Hello **world**" ∧
    htmlToText (str "<p>Hello <b>world</b></p>") = str "Hello world" := by
  exact ⟨by decide, by decide⟩

theorem tryContentSelectors_eq_find (html : List Char) (l : List (List Char)) :
    tryContentSelectors l html =
      (l.find? (fun sel => !(extractBySelector html sel).isEmpty &&
        decide (500 < (extractBySelector html sel).length))).map
        (fun sel => extractBySelector html sel) := by
  induction l with
  | nil => rfl
  | cons sel rest ih =>
    simp only [tryContentSelectors, List.find?]
    by_cases h : (!(extractBySelector html sel).isEmpty &&
        decide (500 < (extractBySelector html sel).length)) = true
    · simp [h]
    · simp only [Bool.not_eq_true] at h
      simp [h, ih]

/-- **C4.** With no selector, the content locator tries the candidates
`article`, `[role="main"]`, `main`, `#content`, `#main`, `.content`, `.main`,
`.article`, `.post` in exactly that order and returns the extraction of the
first candidate whose extracted content exceeds 500 characters (the length is
measured on the extracted markup string); if none qualifies it returns the
`<body>` region, and with no body tag it returns the entire document. -/
theorem C4_main_content_priority (html : List Char) :
    contentSelectors = [str "article", str "[role=\"main\"]", str "main", str "#content",
      str "#main", str ".content", str ".main", str ".article", str ".post"] ∧
    extractMainContent html =
      (match contentSelectors.find? (fun sel => !(extractBySelector html sel).isEmpty &&
          decide (500 < (extractBySelector html sel).length)) with
       | some sel => extractBySelector html sel
       | none =>
         match reFirstGroup true bodyPat 1 html with
         | some inner => inner
         | none => html) := by
  refine ⟨rfl, ?_⟩
  simp only [extractMainContent, tryContentSelectors_eq_find html contentSelectors]
  cases contentSelectors.find? (fun sel => !(extractBySelector html sel).isEmpty &&
      decide (500 < (extractBySelector html sel).length)) <;> simp

/-- **C7.** For every URL that parses with a scheme other than `http` or
`https` (e.g. `ftp://…`), the page-read operation fails immediately with the
`Unsupported protocol` error, with the error flag set and zero fetch calls
issued. -/
theorem C7_non_http_scheme_rejected (f : Nat → FetchStep) (j : Nat → Nat)
    (url : List Char) (format : Option Fmt) (selector : Option (List Char))
    (u : ModelURL) (hu : modelURL url = some u)
    (hp : u.protocol ≠ str "http:") (hp2 : u.protocol ≠ str "https:") :
    webReadExecute f j url format selector =
      ({ text := str "Failed to read URL: Unsupported protocol: " ++ u.protocol ++
          str ". Only http and https are allowed.", isError := true }, 0) := by
  have hcond : (!(u.protocol = str "http:" || u.protocol = str "https:")) = true := by
    simp [hp, hp2]
  have hname : ¬ (str "Error" = str "AbortError") := by decide
  simp only [webReadExecute, innerWebRead, hu, hcond, if_true, if_neg hname]
  simp [str]

theorem C7_non_http_scheme_rejected_witness :
    modelURL (str "ftp://example.com/x") = some { protocol := str "ftp:" } ∧
    webReadExecute (fun _ => .err netErrSample) (fun _ => 0) (str "ftp://example.com/x")
        none none =
      ({ text := str "Failed to read URL: Unsupported protocol: " ++ str "ftp:" ++
          str ". Only http and https are allowed.", isError := true }, 0) :=
  ⟨by decide,
    C7_non_http_scheme_rejected (fun _ => .err netErrSample) (fun _ => 0)
      (str "ftp://example.com/x") none none { protocol := str "ftp:" }
      (by decide) (by decide) (by decide)⟩

theorem webReadConvert_ok (url : List Char) (fmt : Fmt) (title contentHtml : List Char)
    (r : ToolOut) (h : webReadConvert url fmt title contentHtml = .ok r) :
    r.isError = false := by
  simp only [webReadConvert, Except.ok.injEq] at h
  subst h
  rfl

theorem webReadAfterFetch_ok (url : List Char) (fmt : Fmt) (sel : Option (List Char))
    (resp : JsResponse) (r : ToolOut) (h : webReadAfterFetch url fmt sel resp = .ok r) :
    r.isError = false := by
  unfold webReadAfterFetch at h
  dsimp only at h
  repeat' split at h
  all_goals first
    | exact webReadConvert_ok _ _ _ _ _ h
    | (simp only [Except.ok.injEq] at h; subst h; rfl)
    | exact absurd h (by simp)

theorem innerWebRead_ok (f : Nat → FetchStep) (j : Nat → Nat) (url : List Char)
    (format : Option Fmt) (selector : Option (List Char)) (r : ToolOut)
    (h : (innerWebRead f j url format selector).1 = .ok r) : r.isError = false := by
  unfold innerWebRead at h
  split at h
  · exact absurd h (by simp)
  · split at h
    · exact absurd h (by simp)
    · dsimp only at h
      rcases hr : (fetchWithRetry f j 3).result with resp | e
      · rw [hr] at h
        exact webReadAfterFetch_ok _ _ _ _ _ h
      · rw [hr] at h
        exact absurd h (by simp)

theorem innerWebSearch_ok (f : Nat → FetchStep) (j : Nat → Nat) (query : List Char)
    (maxResults : Option Nat) (r : SearchOut)
    (h : innerWebSearch f j query maxResults = .ok r) : r.isError = false := by
  unfold innerWebSearch at h
  dsimp only at h
  rcases hr : (fetchWithRetry f j 3).result with resp | e
  · rw [hr] at h
    repeat' split at h
    all_goals first
      | exact (Except.ok.inj h) ▸ rfl
      | exact absurd h (by simp)
  · rw [hr] at h
    exact absurd h (by simp)

/-- **C8.** For every input and oracle behaviour, each operation returns a
normal renderable result and never raises: the `catch` handler is total, a
thrown `AbortError` produces the distinct `Request cancelled` /
`Search cancelled` text without the error flag, every other thrown failure
produces the wrapped human-readable error text with the error flag set, and
results of the successful path carry no error flag. -/
theorem C8_operations_never_raise (f : Nat → FetchStep) (j : Nat → Nat)
    (url query : List Char) (format : Option Fmt) (selector : Option (List Char))
    (maxResults : Option Nat) :
    (∀ r, (innerWebRead f j url format selector).1 = .ok r →
      (webReadExecute f j url format selector).1 = r ∧ r.isError = false) ∧
    (∀ e, (innerWebRead f j url format selector).1 = .error e →
      e.name = str "AbortError" →
      (webReadExecute f j url format selector).1 =
        { text := str "Request cancelled", isError := false }) ∧
    (∀ e, (innerWebRead f j url format selector).1 = .error e →
      e.name ≠ str "AbortError" →
      (webReadExecute f j url format selector).1 =
        { text := str "Failed to read URL: " ++ e.message, isError := true }) ∧
    (∀ r, innerWebSearch f j query maxResults = .ok r →
      webSearchExecute f j query maxResults = r ∧ r.isError = false) ∧
    (∀ e, innerWebSearch f j query maxResults = .error e →
      e.name = str "AbortError" →
      webSearchExecute f j query maxResults =
        { text := str "Search cancelled", isError := false, resultCount := 0 }) ∧
    (∀ e, innerWebSearch f j query maxResults = .error e →
      e.name ≠ str "AbortError" →
      webSearchExecute f j query maxResults =
        { text := str "Search error: " ++ e.message, isError := true, resultCount := 0 }) := by
  refine ⟨?_, ?_, ?_, ?_, ?_, ?_⟩
  · intro r h
    refine ⟨?_, innerWebRead_ok f j url format selector r h⟩
    rcases hp : innerWebRead f j url format selector with ⟨res, n⟩
    rw [hp] at h
    replace h : res = _ := h
    subst h
    simp [webReadExecute, hp]
  · intro e h hn
    rcases hp : innerWebRead f j url format selector with ⟨res, n⟩
    rw [hp] at h
    replace h : res = _ := h
    subst h
    simp [webReadExecute, hp, hn]
  · intro e h hn
    rcases hp : innerWebRead f j url format selector with ⟨res, n⟩
    rw [hp] at h
    replace h : res = _ := h
    subst h
    simp [webReadExecute, hp, hn]
  · intro r h
    exact ⟨by simp [webSearchExecute, h], innerWebSearch_ok f j query maxResults r h⟩
  · intro e h hn
    simp [webSearchExecute, h, hn]
  · intro e h hn
    simp [webSearchExecute, h, hn]

theorem C8_operations_never_raise_witness :
    ((innerWebRead (fun _ => .err abortErrSample) (fun _ => 0) (str "http://x/")
        none none).1 = .error abortErrSample ∧
      abortErrSample.name = str "AbortError" ∧
      (webReadExecute (fun _ => .err abortErrSample) (fun _ => 0) (str "http://x/")
        none none).1 = { text := str "Request cancelled", isError := false }) ∧
    (innerWebSearch (fun _ => .err netErrSample) (fun _ => 0) (str "q") none =
        .error netErrSample ∧
      netErrSample.name ≠ str "AbortError" ∧
      webSearchExecute (fun _ => .err netErrSample) (fun _ => 0) (str "q") none =
        { text := str "Search error: " ++ netErrSample.message, isError := true
          resultCount := 0 }) := by
  refine ⟨⟨by rfl, by decide, ?_⟩, ⟨by rfl, by decide, ?_⟩⟩
  · exact (C8_operations_never_raise (fun _ => .err abortErrSample) (fun _ => 0)
      (str "http://x/") (str "q") none none none).2.1 abortErrSample (by rfl) (by decide)
  · exact (C8_operations_never_raise (fun _ => .err netErrSample) (fun _ => 0)
      (str "http://x/") (str "q") none none none).2.2.2.2.2 netErrSample (by rfl) (by decide)

/-- **C3 counterexample.** On a page where the selector `#main` matches
exactly one element (the compiled double-quote pattern has exactly one match),
extraction returns the full matched element markup — opening tag and closing
tag included — which differs from the element's inner markup `Hello` that the
claim promises. -/
theorem C3_counterexample :
    reMatchAllStrings true (idPatQ '"' (str "main")) c3Page =
      [str "<div id=\"main\">Hello</div>"] ∧
    extractBySelector c3Page (str "#main") = str "<div id=\"main\">Hello</div>" ∧
    extractBySelector c3Page (str "#main") ≠ str "Hello" :=
  ⟨by decide, by decide, by decide⟩

theorem webReadAfterFetch_selector_missing (url : List Char) (fmt : Fmt)
    (sel html : List Char) (hsel : extractBySelector html sel = []) :
    webReadAfterFetch url fmt (some sel) (htmlResp html) =
      .error { name := str "Error"
               message := str "No content found matching selector: " ++ sel } := by
  simp only [webReadAfterFetch]
  norm_num [htmlResp, JsResponse.isOk, hsel]
  intro h1 _
  exact absurd h1 (by decide)

/-- **C3 (amended).** When an `#id` selector's double-quote pattern matches
exactly once, extraction returns that full matched element region (opening tag
through the first subsequent closing tag) — not merely the inner markup; when
the selector matches nothing, extraction is empty and the operation fails with
the `No content found matching selector` error result (error flag set, one
fetch call, no retry). -/
theorem C3_selector_extraction :
    (∀ (html id m : List Char),
      reMatchAllStrings true (idPatQ '"' id) html = [m] →
      extractBySelector html ('#' :: id) = m) ∧
    (∀ (f : Nat → FetchStep) (j : Nat → Nat) (url html sel : List Char)
      (fmt : Option Fmt),
      modelURL url = some { protocol := str "http:" } →
      f 0 = .ok (htmlResp html) →
      extractBySelector html sel = [] →
      webReadExecute f j url fmt (some sel) =
        ({ text := str "Failed to read URL: No content found matching selector: " ++ sel
           isError := true }, 1)) := by
  constructor
  · intro html id m hm
    simp [extractBySelector, selectorPatterns, tryPatterns, hm, joinSep]
  · intro f j url html sel fmt hu hf hsel
    have hfetch : fetchWithRetry f j 3 =
        { result := .success (htmlResp html), waits := [], calls := 1 } := by
      simp [fetchWithRetry, fetchGo, hf, htmlResp]
    have hAF := webReadAfterFetch_selector_missing url (fmt.getD .markdown) sel html hsel
    simp only [webReadExecute, innerWebRead, hu]
    rw [hfetch]
    simp only [hAF]
    norm_num
    rw [if_neg (by decide : ¬ (str "Error" = str "AbortError"))]
    rfl

theorem C3_selector_extraction_witness :
    (reMatchAllStrings true (idPatQ '"' (str "ad")) (str "<p id=\"ad\">x</p>") =
        [str "<p id=\"ad\">x</p>"] ∧
      extractBySelector (str "<p id=\"ad\">x</p>") ('#' :: str "ad") =
        str "<p id=\"ad\">x</p>") ∧
    (modelURL (str "http://h/") = some { protocol := str "http:" } ∧
      extractBySelector c3Page (str "#nope") = [] ∧
      webReadExecute (fun _ => .ok (htmlResp c3Page)) (fun _ => 0) (str "http://h/")
          none (some (str "#nope")) =
        ({ text := str "Failed to read URL: No content found matching selector: " ++
            str "#nope", isError := true }, 1)) := by
  refine ⟨⟨by decide, ?_⟩, ⟨by decide, by decide, ?_⟩⟩
  · exact C3_selector_extraction.1 (str "<p id=\"ad\">x</p>") (str "ad")
      (str "<p id=\"ad\">x</p>") (by decide)
  · exact C3_selector_extraction.2 (fun _ => .ok (htmlResp c3Page)) (fun _ => 0)
      (str "http://h/") c3Page (str "#nope") none (by decide) (by decide) (by decide)

theorem head_dropWhile_not (p : Char → Bool) :
    ∀ (l : List Char) (c : Char), (l.dropWhile p).head? = some c → p c = false := by
  intro l
  induction l with
  | nil => intro c h; simp [List.dropWhile] at h
  | cons a t ih =>
    intro c h
    rw [List.dropWhile_cons] at h
    by_cases hp : p a
    · rw [if_pos hp] at h
      exact ih c h
    · rw [if_neg hp] at h
      simp only [List.head?_cons, Option.some.injEq] at h
      subst h
      simpa using hp

theorem collapseWsGo_ws_eq_space :
    ∀ (fuel : Nat) (s : List Char), s.length ≤ fuel →
      ∀ c ∈ collapseWsGo fuel s, isJsWs c = true → c = ' ' := by
  intro fuel
  induction fuel with
  | zero =>
    intro s hs c hc
    have : s = [] := List.length_eq_zero.mp (Nat.le_zero.mp hs)
    subst this
    simp [collapseWsGo] at hc
  | succ n ih =>
    intro s hs c hc hw
    match s with
    | [] => simp [collapseWsGo] at hc
    | a :: t =>
      simp only [List.length_cons, Nat.add_le_add_iff_right] at hs
      by_cases ha : isJsWs a
      · simp only [collapseWsGo, if_pos ha, List.mem_cons] at hc
        rcases hc with rfl | hc
        · rfl
        · exact ih _ (le_trans ((List.dropWhile_sublist isJsWs).length_le) hs) c hc hw
      · simp only [collapseWsGo, if_neg ha, List.mem_cons] at hc
        rcases hc with rfl | hc
        · exact absurd hw (by simp [ha])
        · exact ih t hs c hc hw

theorem collapseWsGo_head_not_ws :
    ∀ (fuel : Nat) (s : List Char),
      (∀ c, s.head? = some c → isJsWs c = false) →
      ∀ c, (collapseWsGo fuel s).head? = some c → isJsWs c = false := by
  intro fuel s hh c hc
  match fuel, s with
  | 0, s => exact hh c hc
  | n + 1, [] => simp [collapseWsGo] at hc
  | n + 1, a :: t =>
    have ha : isJsWs a = false := hh a rfl
    have ha' : ¬ isJsWs a = true := by simp [ha]
    simp only [collapseWsGo, if_neg ha', List.head?_cons, Option.some.injEq] at hc
    subst hc
    exact ha

theorem collapseWsGo_chain :
    ∀ (fuel : Nat) (s : List Char), s.length ≤ fuel →
      List.Chain' noWsPair (collapseWsGo fuel s) := by
  intro fuel
  induction fuel with
  | zero =>
    intro s hs
    have : s = [] := List.length_eq_zero.mp (Nat.le_zero.mp hs)
    subst this
    simp [collapseWsGo]
  | succ n ih =>
    intro s hs
    match s with
    | [] => simp [collapseWsGo]
    | a :: t =>
      simp only [List.length_cons, Nat.add_le_add_iff_right] at hs
      by_cases ha : isJsWs a
      · simp only [collapseWsGo, if_pos ha]
        refine List.chain'_cons'.mpr ⟨?_, ih _ (le_trans ((List.dropWhile_sublist isJsWs).length_le) hs)⟩
        intro b hb
        have hbw : isJsWs b = false :=
          collapseWsGo_head_not_ws n (t.dropWhile isJsWs)
            (fun c hc => head_dropWhile_not isJsWs t c hc) b hb
        exact fun hcon => by simp [hbw] at hcon
      · simp only [collapseWsGo, if_neg ha]
        refine List.chain'_cons'.mpr ⟨?_, ih t hs⟩
        intro b _
        exact fun hcon => by simp [ha] at hcon

theorem chain'_flip_of_symm {R : Char → Char → Prop}
    (hsym : ∀ a b, R a b → R b a) {l : List Char} (h : List.Chain' R l) :
    List.Chain' (flip R) l :=
  h.imp (fun {a b} hab => hsym a b hab)

theorem chain_trimJS {l : List Char} (h : List.Chain' noWsPair l) :
    List.Chain' noWsPair (trimJS l) := by
  have hsym : ∀ a b, noWsPair a b → noWsPair b a := by
    intro a b hab hcon
    exact hab ⟨hcon.2, hcon.1⟩
  have h1 : List.Chain' noWsPair (l.dropWhile isJsWs) :=
    h.suffix (List.dropWhile_suffix isJsWs)
  have h2 : List.Chain' noWsPair ((l.dropWhile isJsWs).reverse) :=
    List.chain'_reverse.mpr (chain'_flip_of_symm hsym h1)
  have h3 : List.Chain' noWsPair (((l.dropWhile isJsWs).reverse).dropWhile isJsWs) :=
    h2.suffix (List.dropWhile_suffix isJsWs)
  exact List.chain'_reverse.mpr (chain'_flip_of_symm hsym h3)

theorem mem_trimJS {c : Char} {l : List Char} (h : c ∈ trimJS l) : c ∈ l := by
  unfold trimJS at h
  rw [List.mem_reverse] at h
  have h1 := (List.dropWhile_suffix isJsWs).subset h
  rw [List.mem_reverse] at h1
  exact (List.dropWhile_suffix isJsWs).subset h1

theorem last_trimJS (l : List Char) :
    ∀ c, (trimJS l).getLast? = some c → isJsWs c = false := by
  intro c hc
  unfold trimJS at hc
  rw [List.getLast?_reverse] at hc
  exact head_dropWhile_not isJsWs _ c hc

theorem head_trimJS (l : List Char) :
    ∀ c, (trimJS l).head? = some c → isJsWs c = false := by
  intro c hc
  unfold trimJS at hc
  set u := l.dropWhile isJsWs with hu
  have hsuf : u.reverse.dropWhile isJsWs <:+ u.reverse := List.dropWhile_suffix isJsWs
  have hpre : (u.reverse.dropWhile isJsWs).reverse <+: u := by
    have := List.reverse_prefix.mpr hsuf
    rwa [List.reverse_reverse] at this
  obtain ⟨tl, htl⟩ := hpre
  have hne : (u.reverse.dropWhile isJsWs).reverse ≠ [] := by
    intro hnil
    rw [hnil] at hc
    simp at hc
  have hhead : u.head? = some c := by
    rw [← htl]
    match hx : (u.reverse.dropWhile isJsWs).reverse, hc2 : c with
    | [], _ => exact absurd hx hne
    | a :: t, _ =>
      rw [hx] at hc
      simp only [List.head?_cons, Option.some.injEq] at hc
      simp [hc]
  exact head_dropWhile_not isJsWs l c hhead

theorem cleanText_trimJS {l : List Char}
    (h1 : ∀ c ∈ l, isJsWs c = true → c = ' ') (h2 : List.Chain' noWsPair l) :
    cleanText (trimJS l) := by
  refine ⟨?_, chain_trimJS h2, head_trimJS l, last_trimJS l⟩
  intro c hc hw
  exact h1 c (mem_trimJS hc) hw

theorem cleanText_collapse_trim (x : List Char) : cleanText (trimJS (collapseWs x)) :=
  cleanText_trimJS
    (collapseWsGo_ws_eq_space x.length x le_rfl)
    (collapseWsGo_chain x.length x le_rfl)

theorem cleanText_trim_again {s : List Char} (h : cleanText s) : cleanText (trimJS s) :=
  cleanText_trimJS h.1 h.2.1

/-- Every title or snippet the parser builds is `stripTags(...).trim()`, i.e.
`trimJS (stripTagsWS _)`; such strings satisfy `cleanText`. -/
theorem cleanText_titleShape (z : List Char) : cleanText (trimJS (stripTagsWS z)) := by
  unfold stripTagsWS
  exact cleanText_trim_again (cleanText_collapse_trim _)

theorem cleanText_nil : cleanText ([] : List Char) := by
  refine ⟨?_, ?_, ?_, ?_⟩ <;> simp [List.Chain']

theorem collectUrlTitles_mem (pat : RE) :
    ∀ (fuel : Nat) (s : List Char) (acc : List (List Char × List Char)) (mx : Nat)
      (ut : List Char × List Char), ut ∈ collectUrlTitles pat fuel s acc mx →
      ut ∈ acc ∨ (∃ u t, ut = (u, t) ∧ ddgKeep u t = true ∧
        ∃ z, t = trimJS (stripTagsWS z)) := by
  intro fuel
  induction fuel with
  | zero => intro s acc mx ut h; exact Or.inl h
  | succ n ih =>
    intro s acc mx ut h
    rw [collectUrlTitles] at h
    cases hsr : reSearch true pat s with
    | none =>
      rw [hsr] at h
      exact Or.inl h
    | some m =>
      rw [hsr] at h
      dsimp only at h
      by_cases hlt : acc.length < mx
      · rw [if_pos hlt] at h
        by_cases hkeep : ddgKeep (ddgResolveUrl (capGet m.caps 1))
            (trimJS (stripTagsWS (capGet m.caps 2))) = true
        · rw [if_pos hkeep] at h
          rcases ih _ _ _ ut h with hacc | hk
          · rcases List.mem_append.mp hacc with h1 | h2
            · exact Or.inl h1
            · simp only [List.mem_singleton] at h2
              exact Or.inr ⟨ddgResolveUrl (capGet m.caps 1),
                trimJS (stripTagsWS (capGet m.caps 2)), h2, hkeep,
                ⟨capGet m.caps 2, rfl⟩⟩
          · exact Or.inr hk
        · rw [if_neg hkeep] at h
          rcases ih _ _ _ ut h with hacc | hk
          · exact Or.inl hacc
          · exact Or.inr hk
      · rw [if_neg hlt] at h
        exact Or.inl h

theorem collectSnippets_mem (pat : RE) :
    ∀ (fuel : Nat) (s : List Char) (acc : List (List Char)) (mx : Nat) (q : List Char),
      q ∈ collectSnippets pat fuel s acc mx →
      q ∈ acc ∨ ∃ z, q = trimJS (stripTagsWS z) := by
  intro fuel
  induction fuel with
  | zero => intro s acc mx q h; exact Or.inl h
  | succ n ih =>
    intro s acc mx q h
    simp only [collectSnippets] at h
    cases hsr : reSearch true pat s with
    | none =>
      rw [hsr] at h
      exact Or.inl h
    | some m =>
      rw [hsr] at h
      dsimp only at h
      by_cases hlt : acc.length < mx
      · rw [if_pos hlt] at h
        rcases ih _ _ _ q h with hacc | hk
        · rcases List.mem_append.mp hacc with h1 | h2
          · exact Or.inl h1
          · simp only [List.mem_singleton] at h2
            exact Or.inr ⟨capGet m.caps 1, h2⟩
        · exact Or.inr hk
      · rw [if_neg hlt] at h
        exact Or.inl h

theorem getD_mem_or (l : List (List Char)) (i : Nat) :
    l.getD i [] = [] ∨ l.getD i [] ∈ l := by
  by_cases hi : i < l.length
  · right
    rw [List.getD_eq_getElem l [] hi]
    exact List.getElem_mem hi
  · left
    exact List.getD_eq_default l [] (by omega)

theorem combineResults_mem (snips : List (List Char)) (mx : Nat) :
    ∀ (l : List (List Char × List Char)) (i : Nat) (r : WebSearchResult),
      r ∈ combineResults snips mx l i →
      (∃ ut ∈ l, r.url = ut.1 ∧ r.title = ut.2) ∧
      (r.snippet = [] ∨ r.snippet ∈ snips) := by
  intro l
  induction l with
  | nil => intro i r h; simp [combineResults] at h
  | cons ut rest ih =>
    intro i r h
    simp only [combineResults] at h
    by_cases hi : i < mx
    · rw [if_pos hi] at h
      rcases List.mem_cons.mp h with rfl | h2
      · exact ⟨⟨ut, List.mem_cons_self _ _, rfl, rfl⟩, getD_mem_or snips i⟩
      · obtain ⟨⟨ut', hut', hu, ht⟩, hs⟩ := ih (i + 1) r h2
        exact ⟨⟨ut', List.mem_cons_of_mem _ hut', hu, ht⟩, hs⟩
    · rw [if_neg hi] at h
      simp at h

/-- **C10 (amended).** Every `SearchResult` the parser produces has a title
and a snippet free of newline, carriage-return and tab characters, with all
whitespace runs collapsed to single spaces and the string trimmed.  (Tags are
stripped, but because the named entities are decoded after tag stripping,
entity-encoded text may reintroduce `<...>` syntax — see the
counterexample.) -/
theorem C10_title_snippet_clean (html : List Char) (n : Nat) (r : WebSearchResult)
    (hr : r ∈ parseDDGResults html n) :
    ('\n' ∉ r.title ∧ '\r' ∉ r.title ∧ '\t' ∉ r.title ∧ cleanText r.title) ∧
    ('\n' ∉ r.snippet ∧ '\r' ∉ r.snippet ∧ '\t' ∉ r.snippet ∧ cleanText r.snippet) := by
  unfold parseDDGResults at hr
  dsimp only at hr
  obtain ⟨⟨ut, hut, hu, ht⟩, hsnip⟩ := combineResults_mem _ _ _ 0 r hr
  have htitle : cleanText r.title := by
    rcases collectUrlTitles_mem _ _ _ _ _ ut hut with habs | ⟨u, t, huteq, _, z, hz⟩
    · simp at habs
    · rw [ht, huteq]
      show cleanText t
      rw [hz]
      exact cleanText_titleShape z
  have hsnipc : cleanText r.snippet := by
    rcases hsnip with h0 | hmem
    · rw [h0]
      exact cleanText_nil
    · rcases collectSnippets_mem _ _ _ _ _ _ hmem with habs | ⟨z, hz⟩
      · simp at habs
      · rw [hz]
        exact cleanText_titleShape z
  have noNl : ∀ (u : List Char), cleanText u → '\n' ∉ u ∧ '\r' ∉ u ∧ '\t' ∉ u := by
    intro u hc
    refine ⟨fun hm => ?_, fun hm => ?_, fun hm => ?_⟩ <;>
      · have := hc.1 _ hm (by decide)
        simp at this
  exact ⟨⟨(noNl _ htitle).1, (noNl _ htitle).2.1, (noNl _ htitle).2.2, htitle⟩,
    ⟨(noNl _ hsnipc).1, (noNl _ hsnipc).2.1, (noNl _ hsnipc).2.2, hsnipc⟩⟩

set_option maxRecDepth 40000 in
/-- **C10 counterexample.** A result anchor whose text is the encoded
`&lt;b&gt;` produces the title `<b>`, which does contain `<...>` tag syntax
(it matches the tag pattern `/<[^>]+>/`): `stripTags` decodes entities after
removing tags, so the claim's "no tag syntax" part fails. -/
theorem C10_counterexample :
    (parseDDGResults entityAnchor 10).map (fun r => r.title) = [str "<b>"] ∧
    reTest false stripTagsPat (str "<b>") = true :=
  ⟨by decide, by decide⟩

set_option maxRecDepth 40000 in
theorem C10_title_snippet_clean_witness :
    ({ url := str "https://example.com/", title := str "<b>", snippet := [] } :
        WebSearchResult) ∈ parseDDGResults entityAnchor 10 ∧
    (('\n' ∉ str "<b>" ∧ '\r' ∉ str "<b>" ∧ '\t' ∉ str "<b>" ∧ cleanText (str "<b>")) ∧
      ('\n' ∉ ([] : List Char) ∧ '\r' ∉ ([] : List Char) ∧ '\t' ∉ ([] : List Char) ∧
        cleanText ([] : List Char))) :=
  ⟨by decide,
    C10_title_snippet_clean entityAnchor 10
      { url := str "https://example.com/", title := str "<b>", snippet := [] } (by decide)⟩

set_option maxRecDepth 100000 in
/-- **C5.** Parsing a results page holding 15 well-formed result anchors with
`maxResults = 10` returns exactly the expected 10 `SearchResult`s in source
order; the redirector href whose `uddg=` parameter is
`https%3A%2F%2Fexample.com` resolves to `https://example.com`; and every
parsed result's URL does not start with `/`, does not contain the provider's
own domain, and has a nonempty (tag-stripped) title. -/
theorem C5_parse_results :
    (parseDDGResults ddgPage15 10 = ddgExpected ∧
      ddgResolveUrl (str "//duckduckgo.com/l/?uddg=https%3A%2F%2Fexample.com&rut=x") =
        str "https://example.com") ∧
    (∀ (html : List Char) (n : Nat) (r : WebSearchResult), r ∈ parseDDGResults html n →
      r.url.head? ≠ some '/' ∧ containsSub (str "duckduckgo.com") r.url = false ∧
      r.title ≠ []) := by
  constructor
  · exact ⟨by decide, by decide⟩
  · intro html n r hr
    unfold parseDDGResults at hr
    dsimp only at hr
    obtain ⟨⟨ut, hut, hu, ht⟩, _⟩ := combineResults_mem _ _ _ 0 r hr
    rcases collectUrlTitles_mem _ _ _ _ _ ut hut with habs | ⟨u, t, huteq, hkeep, _⟩
    · simp at habs
    · rw [hu, ht, huteq]
      show u.head? ≠ some '/' ∧ containsSub (str "duckduckgo.com") u = false ∧ t ≠ []
      unfold ddgKeep at hkeep
      simp only [Bool.and_eq_true, Bool.not_eq_true', decide_eq_false_iff_not,
        List.isEmpty_eq_false] at hkeep
      obtain ⟨⟨⟨_, hslash⟩, hddg⟩, htne⟩ := hkeep
      exact ⟨hslash, hddg, htne⟩

set_option maxRecDepth 100000 in
theorem C5_parse_results_witness :
    ({ url := str "https://ok.com/", title := str "Good", snippet := [] } :
        WebSearchResult) ∈
      parseDDGResults (str "<a class=\"result__a\" href=\"https://ok.com/\">Good</a>") 10 ∧
    ((str "https://ok.com/").head? ≠ some '/' ∧
      containsSub (str "duckduckgo.com") (str "https://ok.com/") = false ∧
      str "Good" ≠ []) :=
  ⟨by decide,
    C5_parse_results.2 (str "<a class=\"result__a\" href=\"https://ok.com/\">Good</a>") 10
      { url := str "https://ok.com/", title := str "Good", snippet := [] } (by decide)⟩

end Pi
